import Mathlib

/-!
# lipsia: `vlisa0` (LISA inference driver) and `Nii2Vista` (NIfTI conversion)

A shallow embedding of `src/stats/vlisa0/vlisa0.c` and of parts of
`src/conv/vnifti/Nii2Vista.c`.

Conventions of the embedding
* C `float`/`double` samples are exact rationals (`ℚ`); rounding is not modelled.
* An image is its header fields together with the pixel buffer as a list.
* `VError` terminates the program; a function that may call it returns `Except String _`.
* Functions of the repository that are declared `extern` in `vlisa0.c` and whose bodies are
  not among the sources are fields of the record `Externs`; `main` is a function of that record.
-/

set_option autoImplicit false

/-- Pixel representations of the Vista image library that the two programs mention. -/
inductive VRepnKind where
  | VBitRepn | VUByteRepn | VSByteRepn | VShortRepn | VUShortRepn
  | VIntegerRepn | VUIntegerRepn | VLongRepn | VULongRepn
  | VFloatRepn | VDoubleRepn | VBooleanRepn | VStringRepn
  deriving DecidableEq, Repr

namespace vlisa0

/-- An image of `vlisa0.c`: band, row and column counts, the pixel representation and the pixel
buffer (`VImageData`). -/
structure VImage where
  nbands : Nat
  nrows : Nat
  ncolumns : Nat
  pixel_repn : VRepnKind
  data : List ℚ
  deriving DecidableEq

/-- The macro `VImageNPixels`: bands times rows times columns. -/
def VImageNPixels (src : VImage) : Nat :=
  src.nbands * src.nrows * src.ncolumns

/-- The samples a loop `for (i=0; i<VImageNPixels(src); i++) *pp++` reads from the buffer. -/
def VImageData (src : VImage) : List ℚ :=
  src.data.take (VImageNPixels src)

/-! ## The GSL histogram (library code used by `HistoUpdate`) -/

/-- A `gsl_histogram`: `n` bins, `n+1` range boundaries, `n` bin counts. The counts are doubles
that only ever receive `+= 1.0`, hence natural numbers. -/
structure gsl_histogram where
  n : Nat
  range : List ℚ
  bin : List Nat
  deriving DecidableEq

/-- Allocation: `gsl_histogram_alloc (n)`, with the storage zero-filled. -/
def gsl_histogram_alloc (n : Nat) : gsl_histogram :=
  { n := n, range := List.replicate (n + 1) 0, bin := List.replicate n 0 }

/-- The boundaries `range[i] = ((n-i)/n) * xmin + (i/n) * xmax` for `i = 0..n`. -/
def make_uniform (n : Nat) (xmin xmax : ℚ) : List ℚ :=
  (List.range (n + 1)).map fun (i : Nat) =>
    (((n : ℚ) - (i : ℚ)) / (n : ℚ)) * xmin + ((i : ℚ) / (n : ℚ)) * xmax

/-- The library routine `gsl_histogram_set_ranges_uniform (h, xmin, xmax)`: refuses
`xmin >= xmax` (an error code, the handler being off), otherwise sets uniform boundaries and
clears the bins. -/
def gsl_histogram_set_ranges_uniform (h : gsl_histogram) (xmin xmax : ℚ) : gsl_histogram :=
  if xmin ≥ xmax then h
  else { n := h.n, range := make_uniform h.n xmin xmax, bin := List.replicate h.n 0 }

/-- The accessor `gsl_histogram_min`: `range[0]`. -/
def gsl_histogram_min (h : gsl_histogram) : ℚ := h.range.getD 0 0

/-- The accessor `gsl_histogram_max`: `range[n]`. -/
def gsl_histogram_max (h : gsl_histogram) : ℚ := h.range.getD h.n 0

/-- The binary search of the library's `find`: `while (upper - lower > 1)` halves the interval;
`fuel` bounds the number of iterations (`n` always suffices). -/
def find_bsearch (range : List ℚ) (x : ℚ) : Nat → Nat → Nat → Nat
  | 0, lower, _ => lower
  | fuel + 1, lower, upper =>
    if upper - lower > 1 then
      let mid := (upper + lower) / 2
      if x ≥ range.getD mid 0 then find_bsearch range x fuel mid upper
      else find_bsearch range x fuel lower mid
    else lower

/-- The library's `find (n, range, x, &i)`: `none` when `x < range[0]` or `x >= range[n]` (or
when the final sanity check fails), otherwise the index of the bin holding `x`, by the linear
guess when it is right and by binary search otherwise. -/
def find (n : Nat) (range : List ℚ) (x : ℚ) : Option Nat :=
  if x < range.getD 0 0 then none
  else if x ≥ range.getD n 0 then none
  else
    let u := (x - range.getD 0 0) / (range.getD n 0 - range.getD 0 0)
    let i_linear := (Int.floor (u * (n : ℚ))).toNat
    if x ≥ range.getD i_linear 0 ∧ x < range.getD (i_linear + 1) 0 then some i_linear
    else
      let lower := find_bsearch range x n 0 n
      if x < range.getD lower 0 ∨ x ≥ range.getD (lower + 1) 0 then none
      else some lower

/-- The library routine `gsl_histogram_increment (h, x)` with the error handler off: when `find`
fails, or the index is not below `n`, the histogram is left as it is; otherwise
`bin[index] += 1`. -/
def gsl_histogram_increment (h : gsl_histogram) (x : ℚ) : gsl_histogram :=
  match find h.n h.range x with
  | none => h
  | some index =>
    if index ≥ h.n then h
    else { h with bin := h.bin.modify (· + 1) index }

/-- The constant `tiny = 1.0e-8` of `HistoUpdate`. -/
def tiny : ℚ := 1 / 100000000

/-- One pass of the loop body of `HistoUpdate` for the sample `u`, with `xmin` and `xmax` read
before the loop. -/
def HistoUpdate_step (xmin xmax : ℚ) (hist : gsl_histogram) (u : ℚ) : gsl_histogram :=
  if |u| < tiny then hist
  else
    let u := if u > xmax then xmax - tiny else u
    let u := if u < xmin then xmin + tiny else u
    gsl_histogram_increment hist u

/-- The function `HistoUpdate (src1, hist)` of `vlisa0.c`. -/
def HistoUpdate (src1 : VImage) (hist : gsl_histogram) : gsl_histogram :=
  let xmin := gsl_histogram_min hist
  let xmax := gsl_histogram_max hist
  (VImageData src1).foldl (HistoUpdate_step xmin xmax) hist

/-- The sum of all bin counts. -/
def total (h : gsl_histogram) : Nat := h.bin.sum

/-! ## The option table and the static option variables of `main` -/

/-- The static option variables declared at the head of `main`, with their initial values. -/
structure Settings where
  filename : String := ""
  alpha : ℚ := 5 / 100
  radius : Int := 2
  fdrfilename : String := ""
  rvar : ℚ := 2
  svar : ℚ := 2
  numiter : Int := 2
  centering : Bool := false
  cleanup : Bool := true
  nproc : Int := 0
  deriving DecidableEq

/-- The variables an option row can point to (`(VPointer) &filename`, ...). -/
inductive Var where
  | filename | alpha | radius | fdrfilename | rvar | svar | numiter | centering | cleanup | nproc
  deriving DecidableEq

/-- A row of `options[]`: keyword, representation of the value, the variable its `value`
pointer addresses, and whether the row is `VRequiredOpt`. -/
structure VOptionDescRec where
  keyword : String
  repn : VRepnKind
  value : Var
  required : Bool
  deriving DecidableEq

/-- The table `options[]` of `main`, row by row as in the source (the row `centering` holds
`&cleanup`). -/
def options : List VOptionDescRec :=
  [ ⟨"permutations", .VStringRepn, .filename, true⟩,
    ⟨"alpha", .VFloatRepn, .alpha, false⟩,
    ⟨"radius", .VShortRepn, .radius, false⟩,
    ⟨"rvar", .VFloatRepn, .rvar, false⟩,
    ⟨"svar", .VFloatRepn, .svar, false⟩,
    ⟨"numiter", .VShortRepn, .numiter, false⟩,
    ⟨"centering", .VBooleanRepn, .cleanup, false⟩,
    ⟨"cleanup", .VBooleanRepn, .cleanup, false⟩,
    ⟨"fdrfile", .VStringRepn, .fdrfilename, false⟩,
    ⟨"j", .VShortRepn, .nproc, false⟩ ]

/-- A parsed command-line value. -/
inductive OptVal where
  | str (s : String)
  | flt (q : ℚ)
  | short (i : Int)
  | bool (b : Bool)
  deriving DecidableEq

/-- Storing a value through the `value` pointer of a row; a value of another representation than
the variable is not stored. -/
def store (s : Settings) (v : Var) (x : OptVal) : Settings :=
  match v, x with
  | .filename, .str a => { s with filename := a }
  | .alpha, .flt a => { s with alpha := a }
  | .radius, .short a => { s with radius := a }
  | .fdrfilename, .str a => { s with fdrfilename := a }
  | .rvar, .flt a => { s with rvar := a }
  | .svar, .flt a => { s with svar := a }
  | .numiter, .short a => { s with numiter := a }
  | .centering, .bool a => { s with centering := a }
  | .cleanup, .bool a => { s with cleanup := a }
  | .nproc, .short a => { s with nproc := a }
  | _, _ => s

/-- Modelled from the spec: the option parser of the Vista library is not among the sources.
Section 6 of the specification lists the recognised options; each `-keyword value` of the command
line is looked up in the table and its value stored through the row's pointer, in command-line
order, and an unknown keyword ends the program. -/
def VParseCommand (table : List VOptionDescRec) :
    List (String × OptVal) → Settings → Except String Settings
  | [], s => .ok s
  | (key, x) :: rest, s =>
    match table.find? (fun row => row.keyword == key) with
    | none => .error "unknown option"
    | some row => VParseCommand table rest (store s row.value x)

/-- Modelled from the spec: `VParseFilterCmdX` of the Vista library is not among the sources.
It parses the command line with the table and ends the program when a `VRequiredOpt` row was not
given. The options `-in`, `-out` and `-help` that it adds to the table are left out. -/
def VParseFilterCmdX (table : List VOptionDescRec) (argv : List (String × OptVal))
    (s : Settings) : Except String Settings :=
  if table.all (fun row => !row.required || argv.any (fun a => a.1 == row.keyword)) then
    VParseCommand table argv s
  else .error "required option missing"

/-! ## `CheckImageTypes` -/

/-- One iteration of the loop of `CheckImageTypes`: the two `VError` tests for the permutation
image `p`. -/
def CheckImageTypes_step (npixels : Nat) (p : VImage) : Except String Unit :=
  if npixels ≠ VImageNPixels p then .error " inconsistent number of pixels in permutation image"
  else if p.pixel_repn ≠ VRepnKind.VFloatRepn then .error " perm image is not in float repn"
  else .ok ()

/-- The function `CheckImageTypes (zmap, permimages, numperm)` of `vlisa0.c`: the loop over the
permutation images, ended by the first `VError`. -/
def CheckImageTypes (zmap : VImage) : List VImage → Except String Unit
  | [] => .ok ()
  | p :: rest =>
    match CheckImageTypes_step (VImageNPixels zmap) p with
    | .error e => .error e
    | .ok () => CheckImageTypes zmap rest

/-! ## The external routines and `main` -/

/-- The routines `vlisa0.c` declares `extern` (their bodies are in other files of the
repository), and `sqrt` of the C library. The in-place routines return the image they leave. -/
structure Externs where
  VImageVar : VImage → ℚ
  VGetMode : VImage → ℚ
  VZScale : VImage → ℚ → ℚ → VImage
  VBilateralFilter : VImage → Int → ℚ → ℚ → Int → VImage
  VGetHistRange : VImage → ℚ × ℚ
  FDR : VImage → VImage → ℚ → gsl_histogram → gsl_histogram → String → VImage
  VIsolatedVoxels : VImage → ℚ → VImage
  sqrt : ℚ → ℚ

/-- The calls `main` makes, in program order, with their arguments. -/
inductive Call where
  | CheckImageTypes (zmap : VImage) (permimages : List VImage)
  | VImageVar (src : VImage)
  | VGetMode (src : VImage)
  | VZScale (src : VImage) (mode stddev : ℚ)
  | VBilateralFilter (src : VImage) (radius : Int) (var1 var2 : ℚ) (numiter : Int)
  | VGetHistRange (src : VImage)
  | HistoUpdate (src : VImage) (hist : gsl_histogram)
  | FDR (src dest : VImage) (alpha : ℚ) (nullhist realhist : gsl_histogram)
  | VIsolatedVoxels (src : VImage) (threshold : ℚ)
  | VWriteFile (image : VImage)
  deriving DecidableEq

deriving instance DecidableEq for Except

/-- What a run of `main` leaves: the calls made and either the image written to the output file
or the message of the `VError` that ended the run. -/
structure Run where
  calls : List Call
  result : Except String VImage
  deriving DecidableEq

/-- Lines 133-149 of `main`: the estimate of the null standard deviation from the first 30
permutation images; `1.0` when there is none. -/
def null_stddev (E : Externs) (zmap : List VImage) : ℚ :=
  let numperm := zmap.length
  if numperm > 0 then
    let tstperm := if 30 > numperm then numperm else 30
    let acc := (zmap.take tstperm).foldl
      (fun (a : ℚ × ℚ) img => (a.1 + E.VImageVar img, a.2 + 1)) (0, 0)
    let meanvar := acc.1 / acc.2
    E.sqrt meanvar
  else 1

/-- The calls of lines 137-149: one `VImageVar` for each tested permutation image. -/
def null_stddev_calls (zmap : List VImage) : List Call :=
  let numperm := zmap.length
  let tstperm := if 30 > numperm then numperm else 30
  (zmap.take tstperm).map Call.VImageVar

/-- The `mode` of lines 153-154 and 178-179: `VGetMode` of the image when `centering` is set,
else `0`. -/
def get_mode (E : Externs) (s : Settings) (img : VImage) : ℚ :=
  if s.centering then E.VGetMode img else 0

/-- The calls that compute `mode`. -/
def get_mode_calls (s : Settings) (img : VImage) : List Call :=
  if s.centering then [Call.VGetMode img] else []

/-- Lines 178-183: the z-scaled, bilateral-filtered image `dst` of one image (the real one or a
permutation image). -/
def filtered (E : Externs) (s : Settings) (stddev : ℚ) (img : VImage) : VImage :=
  E.VBilateralFilter (E.VZScale img (get_mode E s img) stddev) s.radius s.rvar s.svar s.numiter

/-- The calls of lines 178-183 for one image. -/
def filtered_calls (E : Externs) (s : Settings) (stddev : ℚ) (img : VImage) : List Call :=
  get_mode_calls s img ++
    [Call.VZScale img (get_mode E s img) stddev,
     Call.VBilateralFilter (E.VZScale img (get_mode E s img) stddev) s.radius s.rvar s.svar
       s.numiter]

/-- The permutation loop of lines 175-190, in index order: the histogram `hist0` after it and the
calls it makes. -/
def perm_loop (E : Externs) (s : Settings) (stddev : ℚ) :
    List VImage → gsl_histogram → List Call × gsl_histogram
  | [], hist0 => ([], hist0)
  | img :: rest, hist0 =>
    let dst := filtered E s stddev img
    let r := perm_loop E s stddev rest (HistoUpdate dst hist0)
    (filtered_calls E s stddev img ++ Call.HistoUpdate dst hist0 :: r.1, r.2)

/-- Lines 193-201 of `main`: `fdrimage` after the FDR step, and the calls of that step. -/
def apply_fdr (E : Externs) (s : Settings) (numperm : Nat) (dst1 : VImage)
    (hist0 histz : gsl_histogram) : List Call × VImage :=
  let fdrimage := dst1
  if numperm > 0 then
    let fdrimage1 := E.FDR dst1 fdrimage s.alpha hist0 histz s.fdrfilename
    if s.cleanup ∧ s.alpha < 1 then
      ([Call.FDR dst1 fdrimage s.alpha hist0 histz,
        Call.VIsolatedVoxels fdrimage1 (1 - s.alpha)],
       E.VIsolatedVoxels fdrimage1 (1 - s.alpha))
    else ([Call.FDR dst1 fdrimage s.alpha hist0 histz], fdrimage1)
  else ([], fdrimage)

/-- Lines 117-211 of `main`, from the option variables `s`, the image `zmap1` read from the
input file (`none` for `NULL`) and the images `zmap` of the permutation file. Reading the two
files and `VWriteFile` are taken to succeed; the OpenMP loop over the permutation images is run
in index order. -/
def run (E : Externs) (s : Settings) (zmap1 : Option VImage) (zmap : List VImage) : Run :=
  match zmap1 with
  | none => ⟨[], .error " no input zmap image found"⟩
  | some zmap1 =>
    if zmap1.pixel_repn ≠ VRepnKind.VFloatRepn then ⟨[], .error " input pixel repn must be float"⟩
    else
      match CheckImageTypes zmap1 zmap with
      | .error e => ⟨[Call.CheckImageTypes zmap1 zmap], .error e⟩
      | .ok () =>
        let numperm := zmap.length
        let stddev := null_stddev E zmap
        let dst1 := filtered E s stddev zmap1
        let hrange := E.VGetHistRange dst1
        let nbins := 10000
        let hist0 := gsl_histogram_set_ranges_uniform (gsl_histogram_alloc nbins) hrange.1 hrange.2
        let histz := gsl_histogram_set_ranges_uniform (gsl_histogram_alloc nbins) hrange.1 hrange.2
        let histz1 := HistoUpdate dst1 histz
        let loop := perm_loop E s stddev zmap hist0
        let fdr := apply_fdr E s numperm dst1 loop.2 histz1
        ⟨Call.CheckImageTypes zmap1 zmap :: null_stddev_calls zmap
            ++ filtered_calls E s stddev zmap1
            ++ [Call.VGetHistRange dst1, Call.HistoUpdate dst1 histz]
            ++ loop.1 ++ fdr.1 ++ [Call.VWriteFile fdr.2],
          .ok fdr.2⟩

/-- The program `main` of `vlisa0.c`: the command line is parsed into the option variables, then
the run proceeds. -/
def main (E : Externs) (argv : List (String × OptVal)) (zmap1 : Option VImage)
    (zmap : List VImage) : Run :=
  match VParseFilterCmdX options argv {} with
  | .error e => ⟨[], .error e⟩
  | .ok s => run E s zmap1 zmap

/-! ## The external routines as the specification describes them

The bodies of the `extern` routines are not among the sources. Where a statement needs a concrete
routine, the following definitions are used. -/

/-- The samples of an image that are not zero. -/
def nonzero_samples (src : VImage) : List ℚ :=
  (VImageData src).filter (fun u => u ≠ 0)

/-- Modelled from the spec: `VImageVar` is not among the sources; section 4.1 calls it the
variance of the nonzero sample values of the volume. -/
def spec_VImageVar (src : VImage) : ℚ :=
  let xs := nonzero_samples src
  let mean := xs.sum / (xs.length : ℚ)
  (xs.map (fun u => (u - mean) * (u - mean))).sum / (xs.length : ℚ)

/-- Modelled from the spec: `VGetMode` is not among the sources; section 4.1 calls it a robust
central value of the nonzero samples, "e.g. histogram peak": here the most frequent nonzero
sample, the first one among equally frequent ones, and `0` for a volume without one. -/
def spec_VGetMode (src : VImage) : ℚ :=
  let xs := nonzero_samples src
  xs.foldl (fun best u => if xs.count u > xs.count best then u else best) (xs.headD 0)

/-- Modelled from the spec: `VZScale` is not among the sources; section 4.1: each nonzero sample
is transformed as `(value - mode) / stddev`. -/
def spec_VZScale (src : VImage) (mode stddev : ℚ) : VImage :=
  { src with data := src.data.map (fun u => if u = 0 then 0 else (u - mode) / stddev) }

/-- A rational stand-in for `exp (-x)`, equal to it at `x = 0`: the kernels of section 4.2 are
Gaussian, whose values are not rational. -/
def gauss_approx (x : ℚ) : ℚ := 1 / (1 + x + x * x / 2)

/-- The sample at band `b`, row `r`, column `c`. -/
def VPixel (src : VImage) (b r c : Nat) : ℚ :=
  src.data.getD ((b * src.nrows + r) * src.ncolumns + c) 0

/-- The voxel positions of an image, in buffer order. -/
def positions (src : VImage) : List (Nat × Nat × Nat) :=
  (List.range src.nbands).flatMap fun b =>
    (List.range src.nrows).flatMap fun r =>
      (List.range src.ncolumns).map fun c => (b, r, c)

/-- Whether `q` lies in the cube of side `2*radius+1` around `p`. -/
def in_cube (radius : Int) (p q : Nat × Nat × Nat) : Bool :=
  decide (|(p.1 : Int) - q.1| ≤ radius) && decide (|(p.2.1 : Int) - q.2.1| ≤ radius)
    && decide (|(p.2.2 : Int) - q.2.2| ≤ radius)

/-- The squared distance of two positions. -/
def dist2 (p q : Nat × Nat × Nat) : ℚ :=
  (((p.1 : Int) - q.1) ^ 2 + ((p.2.1 : Int) - q.2.1) ^ 2 + ((p.2.2 : Int) - q.2.2) ^ 2 : Int)

/-- Modelled from the spec: one pass of section 4.2. The output at a voxel is the weighted
average over the in-bounds voxels of the cube around it, the weight being the product of a
spatial kernel of the distance (variance `var2`) and a radiometric kernel of the intensity
difference (variance `var1`), renormalised over the neighbours sampled. -/
def bilateral_pass (radius : Int) (var1 var2 : ℚ) (src : VImage) : VImage :=
  { src with data := (positions src).map fun p =>
      let v := VPixel src p.1 p.2.1 p.2.2
      let nb := (positions src).filter (in_cube radius p)
      let w := fun (q : Nat × Nat × Nat) =>
        gauss_approx (dist2 p q / (2 * var2))
          * gauss_approx ((VPixel src q.1 q.2.1 q.2.2 - v) ^ 2 / (2 * var1))
      (nb.map fun q => w q * VPixel src q.1 q.2.1 q.2.2).sum / (nb.map w).sum }

/-- Modelled from the spec: `VBilateralFilter` is not among the sources; section 4.2: `numiter`
passes, each on the output of the one before. The arguments are in the order of the `extern`
declaration (`radius, var1, var2, numiter`), called with `radius, rvar, svar, numiter`. -/
def spec_VBilateralFilter (src : VImage) (radius : Int) (var1 var2 : ℚ) (numiter : Int) :
    VImage :=
  (bilateral_pass radius var1 var2)^[numiter.toNat] src

/-- Modelled from the spec: `VGetHistRange` is not among the sources; section 4.3, step 1: the
range is the minimum and the maximum of the filtered real volume. -/
def spec_VGetHistRange (src : VImage) : ℚ × ℚ :=
  let xs := VImageData src
  (xs.foldl min (xs.headD 0), xs.foldl max (xs.headD 0))

/-- The mass of a histogram at or beyond bin `i`, as a proportion of its total mass. -/
def tail_proportion (h : gsl_histogram) (i : Nat) : ℚ :=
  ((h.bin.drop i).sum : ℚ) / (h.bin.sum : ℚ)

/-- Modelled from the spec: `FDR` is not among the sources; section 4.4: among the bins with
real mass whose ratio of null to real tail proportion is at most `alpha`, the least extreme one
gives the threshold; voxels at least as extreme are kept, the others set to zero, and all are
zero when no bin qualifies. -/
def spec_FDR (src dest : VImage) (alpha : ℚ) (nullhist realhist : gsl_histogram)
    (_fdrfilename : String) : VImage :=
  let ok := fun (i : Nat) =>
    decide (realhist.bin.getD i 0 ≠ 0) &&
      decide (tail_proportion nullhist i / tail_proportion realhist i ≤ alpha)
  match (List.range realhist.n).find? ok with
  | none => { dest with data := src.data.map fun _ => 0 }
  | some i =>
    { dest with data := src.data.map fun u => if u ≥ realhist.range.getD i 0 then u else 0 }

/-- Modelled from the spec: `VIsolatedVoxels` is not among the sources; section 4.5: a voxel above
the threshold with no other voxel above the threshold in its immediate neighbourhood is set to
zero. -/
def spec_VIsolatedVoxels (src : VImage) (threshold : ℚ) : VImage :=
  { src with data := (positions src).map fun p =>
      let v := VPixel src p.1 p.2.1 p.2.2
      let support := (positions src).filter fun q =>
        in_cube 1 p q && decide (q ≠ p) && decide (VPixel src q.1 q.2.1 q.2.2 > threshold)
      if v > threshold ∧ support = [] then 0 else v }

/-- A stand-in for `sqrt` of the C library on rationals: exact on quotients of perfect squares,
rounded down in numerator and denominator otherwise. -/
def spec_sqrt (x : ℚ) : ℚ :=
  (Nat.sqrt x.num.toNat : ℚ) / (Nat.sqrt x.den : ℚ)

/-- The external routines as the specification describes them. -/
def specExterns : Externs :=
  { VImageVar := spec_VImageVar
    VGetMode := spec_VGetMode
    VZScale := spec_VZScale
    VBilateralFilter := spec_VBilateralFilter
    VGetHistRange := spec_VGetHistRange
    FDR := spec_FDR
    VIsolatedVoxels := spec_VIsolatedVoxels
    sqrt := spec_sqrt }

/-! ## Auxiliary definitions for the statements -/

/-- What `gsl_histogram_increment` does to the bin array, as a function of `n`, the boundaries
and the value. -/
def deposit (n : Nat) (range : List ℚ) (x : ℚ) (bin : List Nat) : List Nat :=
  match find n range x with
  | none => bin
  | some index => if index ≥ n then bin else bin.modify (· + 1) index

/-- The value `HistoUpdate` hands to `gsl_histogram_increment` for a sample `u` that is not
skipped. -/
def clamped (xmin xmax u : ℚ) : ℚ :=
  let u := if u > xmax then xmax - tiny else u
  if u < xmin then xmin + tiny else u

/-- What one pass of the loop of `HistoUpdate` does to the bin array. -/
def step_bin (n : Nat) (range : List ℚ) (xmin xmax : ℚ) (bin : List Nat) (u : ℚ) : List Nat :=
  if |u| < tiny then bin else deposit n range (clamped xmin xmax u) bin

/-- What `HistoUpdate` does to the bin array. -/
def update_bin (src : VImage) (n : Nat) (range : List ℚ) (bin : List Nat) : List Nat :=
  (VImageData src).foldl (step_bin n range (range.getD 0 0) (range.getD n 0)) bin

/-- Accumulation of a list of images into one histogram, in list order. -/
def accumulate (h : gsl_histogram) (ds : List VImage) : gsl_histogram :=
  ds.foldl (fun h d => HistoUpdate d h) h

/-- The histogram with the same boundaries and all bins zero. -/
def clear (h : gsl_histogram) : gsl_histogram :=
  { h with bin := List.replicate h.bin.length 0 }

/-- The bin-wise sum of two bin arrays. -/
def add_bins (a b : List Nat) : List Nat := List.zipWith (· + ·) a b

/-- The samples of an image that `HistoUpdate` skips: those with `|u| < tiny`. -/
def skipped (src : VImage) : List ℚ := (VImageData src).filter (fun u => |u| < tiny)

/-- A histogram of `nbins` uniform bins over `[xmin, xmax]`, as `main` sets up `hist0` and
`histz`. -/
def uniform_histogram (nbins : Nat) (xmin xmax : ℚ) : gsl_histogram :=
  gsl_histogram_set_ranges_uniform (gsl_histogram_alloc nbins) xmin xmax

/-- Whether every sample of an image is zero. -/
def all_zero (img : VImage) : Prop := ∀ u ∈ img.data, u = 0

instance (img : VImage) : Decidable (all_zero img) := by
  unfold all_zero; infer_instance

/-- Whether a call is a call of `VZScale`. -/
def Call.isVZScale : Call → Bool
  | .VZScale _ _ _ => true
  | _ => false

/-- Whether a call is a call of `VBilateralFilter`. -/
def Call.isVBilateralFilter : Call → Bool
  | .VBilateralFilter _ _ _ _ _ => true
  | _ => false

/-- Whether a call is a call of `FDR`. -/
def Call.isFDR : Call → Bool
  | .FDR _ _ _ _ _ => true
  | _ => false

/-- Whether a call is a call of `VIsolatedVoxels`. -/
def Call.isVIsolatedVoxels : Call → Bool
  | .VIsolatedVoxels _ _ => true
  | _ => false

/-- What is known of a call made before the FDR step: it is neither `FDR` nor
`VIsolatedVoxels`, and a `VZScale` among them has the mode and the standard deviation that `main`
computes. -/
def early_call (E : Externs) (s : Settings) (stddev : ℚ) (c : Call) : Prop :=
  c.isFDR = false ∧ c.isVIsolatedVoxels = false
    ∧ ∀ img mode sd, c = Call.VZScale img mode sd → mode = get_mode E s img ∧ sd = stddev

/-- The mean of `VImageVar` over the first `min(30, n)` images of a list of `n` permutation
images, in the words of the specification of the null-scale estimate. -/
def mean_var (E : Externs) (zmap : List VImage) : ℚ :=
  ((zmap.take (min 30 zmap.length)).map E.VImageVar).sum / ((min 30 zmap.length : Nat) : ℚ)

/-! ## Example inputs -/

/-- A command line that names the permutation file and nothing else. -/
def argv_default : List (String × OptVal) := [("permutations", .str "perm.v")]

/-- A command line that names the permutation file, switches `cleanup` off and `centering`
on. -/
def argv_centering : List (String × OptVal) :=
  [("permutations", .str "perm.v"), ("cleanup", .bool false), ("centering", .bool true)]

/-- A float image of one voxel with the value 5. -/
def z5 : VImage := ⟨1, 1, 1, .VFloatRepn, [5]⟩

/-- A float image of two voxels with the values 3 and 5 (variance 1). -/
def z35 : VImage := ⟨1, 1, 2, .VFloatRepn, [3, 5]⟩

/-- A float image of two voxels, both 3 (variance 0). -/
def z33 : VImage := ⟨1, 1, 2, .VFloatRepn, [3, 3]⟩

/-- A float image of one voxel whose value is 1. -/
def z1 : VImage := ⟨1, 1, 1, .VFloatRepn, [1]⟩

/-- A float image of three voxels. -/
def z3 : VImage := ⟨1, 1, 3, .VFloatRepn, [1 / 4, 3 / 4, 2]⟩

end vlisa0

namespace Nii2Vista

/-! ## `VIniImage` of `Nii2Vista.c`

Addresses are natural numbers; the header of an image records the address of its pixel data and
the two index tables. -/

/-- The fields of `VImageRec` that `VIniImage` sets, apart from `flags` (always
`VImageSingleAlloc`) and `attributes` (a fresh empty list). `band_index[band]` is a pointer into
`row_index`, recorded as the position it points to; `row_index[row]` is the address of the row
in the data buffer. -/
structure VImageRec where
  nbands : Int
  nrows : Int
  ncolumns : Int
  pixel_repn : VRepnKind
  data : Nat
  band_index : List Int
  row_index : List Nat
  nframes : Int
  nviewpoints : Int
  ncolors : Int
  ncomponents : Int
  deriving DecidableEq

/-- The macro `AlignUp(v, b)`: `v` rounded up to a multiple of `b`. -/
def AlignUp (v b : Nat) : Nat := ((v + b - 1) / b) * b

/-- The function `VIniImage (nbands, nrows, ncolumns, pixel_repn, databuffer)`. The parameter
`VRepnSize` is the size table of the Vista library, `databuffer` the address of the buffer. The
result is `.error` when `VError` ends the program, `.ok (some image)` when a pointer to an image
is returned and `.ok none` would be a returned null pointer. -/
def VIniImage (VRepnSize : VRepnKind → Nat) (nbands nrows ncolumns : Int)
    (pixel_repn : VRepnKind) (databuffer : Nat) : Except String (Option VImageRec) :=
  let row_size : Nat := (ncolumns * (VRepnSize pixel_repn : Int)).toNat
  if nbands < 1 then .error "VIniImage: Invalid number of bands"
  else if nrows < 1 then .error "VIniImage: Invalid number of rows"
  else if ncolumns < 1 then .error "VIniImage: Invalid number of columns"
  else
    let pixel_size := VRepnSize pixel_repn
    let data := AlignUp (databuffer + 4) pixel_size
    .ok (some
      { nbands := nbands
        nrows := nrows
        ncolumns := ncolumns
        pixel_repn := pixel_repn
        data := data
        band_index := (List.range nbands.toNat).map fun (band : Nat) => (band : Int) * nrows
        row_index := (List.range (nbands * nrows).toNat).map fun (row : Nat) =>
          data + row * row_size
        nframes := nbands
        nviewpoints := 1
        ncolors := 1
        ncomponents := 1 })

/-- A size table for the examples: four bytes for every representation. -/
def size4 : VRepnKind → Nat := fun _ => 4

/-- The sizes in bytes of the pixel types, for the examples: the table `VRepnSize` of the Vista
library is not among the sources; these are the sizes of the C types the representations stand
for on a 64-bit system, the same as `bitpix / 8` of the NIfTI datatype that `Nifti1_to_Vista`
pairs with each. -/
def sizeC : VRepnKind → Nat
  | .VBitRepn => 1
  | .VUByteRepn => 1
  | .VSByteRepn => 1
  | .VShortRepn => 2
  | .VUShortRepn => 2
  | .VIntegerRepn => 4
  | .VUIntegerRepn => 4
  | .VLongRepn => 8
  | .VULongRepn => 8
  | .VFloatRepn => 4
  | .VDoubleRepn => 8
  | .VBooleanRepn => 1
  | .VStringRepn => 8

/-! ## The two conversion paths: where a voxel is read -/

/-- The linear index of the voxel at time step `ti`, slice `slice`, row `row`, column `col` in a
data block of `nslices` slices of `nrows` rows of `ncols` columns per time step. -/
def linear_index (nslices nrows ncols ti slice row col : Nat) : Nat :=
  col + row * ncols + slice * nrows * ncols + ti * nslices * nrows * ncols

/-- The byte index `index` of `Nii2Vista4D` (line 223), at which `VGetValue (data, index,
datatype)` reads the sample of the voxel: an offset from `data`. -/
def Nii2Vista4D_index (nsize nslices nrows ncols ti slice row col : Nat) : Nat :=
  let nrnc := nrows * ncols
  let npix := nrnc * nslices
  (col + row * ncols + slice * nrnc + ti * npix + 1) * nsize

/-- The body of the loop of `Nii2Vista3DList` for the time step `i` (lines 186-187): the image
`dst[i]` that `VIniImage` sets up on the buffer `&data[i*npix*nsize]`; `data` is the address of
the data block. -/
def Nii2Vista3DList_image (VRepnSize : VRepnKind → Nat) (data nsize nslices nrows ncols : Nat)
    (pixel_repn : VRepnKind) (i : Nat) : Except String (Option VImageRec) :=
  let npix := nrows * ncols * nslices
  let index := i * npix * nsize
  VIniImage VRepnSize nslices nrows ncols pixel_repn (data + index)

/-- The function `Nii2Vista3DList`, as the list of the images `dst[0..nt-1]` it appends to the
output list; the first `VError` ends it. -/
def Nii2Vista3DList (VRepnSize : VRepnKind → Nat) (data nsize nslices nrows ncols nt : Nat)
    (pixel_repn : VRepnKind) : Except String (List (Option VImageRec)) :=
  (List.range nt).mapM (Nii2Vista3DList_image VRepnSize data nsize nslices nrows ncols pixel_repn)

/-- Modelled from the spec: the macro `VPixelPtr` of the Vista library is not among the sources;
section 9 describes the layout of an image as one block with computed row and band pointers. The
address of the pixel at `band`, `row`, `column` is the row pointer `band_index[band][row]` plus
the column times the pixel size. -/
def VPixelPtr (VRepnSize : VRepnKind → Nat) (image : VImageRec) (band row column : Nat) : Nat :=
  image.row_index.getD ((image.band_index.getD band 0).toNat + row) 0
    + column * VRepnSize image.pixel_repn

/-- The byte offset from `data` at which the list-of-3D-images path places the voxel at time
step `ti`, slice `slice`, row `row`, column `col`: the address of that pixel in the image
`dst[ti]` of `Nii2Vista3DList`, less `data`; `none` when no image was set up. -/
def Nii2Vista3DList_offset (VRepnSize : VRepnKind → Nat) (data nsize nslices nrows ncols : Nat)
    (pixel_repn : VRepnKind) (ti slice row col : Nat) : Option Nat :=
  match Nii2Vista3DList_image VRepnSize data nsize nslices nrows ncols pixel_repn ti with
  | .ok (some image) => some (VPixelPtr VRepnSize image slice row col - data)
  | _ => none

/-! ## `VGetNiftiHeader`: the units of the stored geometry -/

/-- The unit code `NIFTI_UNITS_METER` of the NIfTI-1 header file. -/
def NIFTI_UNITS_METER : Nat := 1

/-- The unit code `NIFTI_UNITS_MM`. -/
def NIFTI_UNITS_MM : Nat := 2

/-- The unit code `NIFTI_UNITS_MICRON`. -/
def NIFTI_UNITS_MICRON : Nat := 3

/-- The unit code `NIFTI_UNITS_SEC`. -/
def NIFTI_UNITS_SEC : Nat := 8

/-- The unit code `NIFTI_UNITS_MSEC`. -/
def NIFTI_UNITS_MSEC : Nat := 16

/-- The unit code `NIFTI_UNITS_USEC`. -/
def NIFTI_UNITS_USEC : Nat := 24

/-- The macro `XYZT_TO_SPACE` of the NIfTI-1 header file: `xyzt & 0x07`. -/
def XYZT_TO_SPACE (xyzt : Nat) : Nat := xyzt &&& 0x07

/-- The macro `XYZT_TO_TIME` of the NIfTI-1 header file: `xyzt & 0x38`. -/
def XYZT_TO_TIME (xyzt : Nat) : Nat := xyzt &&& 0x38

/-- The fields of `nifti_1_header` that lines 253-288 of `VGetNiftiHeader` read. -/
structure nifti_1_header where
  dim_info : Int
  dim : List Int
  pixdim : List ℚ
  xyzt_units : Nat
  deriving DecidableEq

/-- The attributes that lines 253-288 of `VGetNiftiHeader` store in `geolist`: `dim_info`, the
bundle `dim` (the array `E`) and the bundle `pixdim` (the array `D`). -/
structure GeoInfo where
  dim_info : Int
  dim : List ℚ
  pixdim : List ℚ
  deriving DecidableEq

/-- Lines 253-288 of `VGetNiftiHeader (geolist, hdr, tr)`: the scale factors and the attributes
`dim_info`, `dim` and `pixdim`. The attributes set further down (qform, sform, encoding
directions, slice timing) are left out. -/
def VGetNiftiHeader (hdr : nifti_1_header) (tr : Int) : GeoInfo :=
  let xyzt := hdr.xyzt_units
  let spaceunits := XYZT_TO_SPACE xyzt
  let timeunits := XYZT_TO_TIME xyzt
  let xscale : ℚ := if spaceunits = NIFTI_UNITS_MICRON then 1000 else 1
  let tscale : ℚ := if timeunits = NIFTI_UNITS_SEC then 1000 else 1
  let E : List ℚ := (List.range 8).map fun (i : Nat) => ((hdr.dim.getD i 0 : Int) : ℚ)
  let E := [5, 6, 7].foldl (fun (E : List ℚ) (i : Nat) => E.set i 0) E
  let D : List ℚ := (List.range 8).map fun (i : Nat) => hdr.pixdim.getD i 0
  let D := [1, 2, 3].foldl (fun (D : List ℚ) (i : Nat) => D.modify (· * xscale) i) D
  let D := D.modify (· * tscale) 4
  let D := if tr > 0 then D.set 4 (tr : ℚ) else D
  let D := [5, 6, 7].foldl (fun (D : List ℚ) (i : Nat) => D.set i 0) D
  { dim_info := hdr.dim_info, dim := E, pixdim := D }

/-- A length in the space unit `spaceunits`, expressed in millimetres: the conversion the units
comment of `VGetNiftiHeader` announces, in the words of the claim. -/
def to_mm (spaceunits : Nat) (x : ℚ) : ℚ :=
  if spaceunits = NIFTI_UNITS_METER then x * 1000
  else if spaceunits = NIFTI_UNITS_MICRON then x / 1000
  else x

/-- A duration in the time unit `timeunits`, expressed in seconds: the conversion the units
comment of `VGetNiftiHeader` announces, in the words of the claim. -/
def to_sec (timeunits : Nat) (x : ℚ) : ℚ :=
  if timeunits = NIFTI_UNITS_MSEC then x / 1000
  else if timeunits = NIFTI_UNITS_USEC then x / 1000000
  else x

/-- A header in microns and seconds: voxels of 500 microns, repetition time 2 seconds. -/
def hdr_micron_sec : nifti_1_header :=
  { dim_info := 0, dim := [4, 64, 64, 30, 100, 1, 1, 1],
    pixdim := [1, 500, 500, 500, 2, 0, 0, 0], xyzt_units := 11 }

/-- A header in millimetres and seconds: voxels of 3 mm, repetition time 2 seconds. -/
def hdr_mm_sec : nifti_1_header :=
  { dim_info := 0, dim := [4, 64, 64, 30, 100, 1, 1, 1],
    pixdim := [1, 3, 3, 3, 2, 0, 0, 0], xyzt_units := 10 }

end Nii2Vista

namespace vlisa0

/-! ## The histogram: `HistoUpdate` -/

theorem modify_succ_comm (l : List Nat) (i j : Nat) :
    (l.modify (· + 1) i).modify (· + 1) j = (l.modify (· + 1) j).modify (· + 1) i := by
  induction l generalizing i j with
  | nil => simp
  | cons a l ih =>
    cases i <;> cases j <;> simp [ih]

theorem modify_zipWith_add (a b : List Nat) (i : Nat) :
    (List.zipWith (· + ·) a b).modify (· + 1) i
      = List.zipWith (· + ·) a (b.modify (· + 1) i) := by
  induction a generalizing b i with
  | nil => simp
  | cons x a ih =>
    cases b with
    | nil => simp
    | cons y b =>
      cases i with
      | zero => simp [Nat.add_assoc]
      | succ i => simp [ih]

theorem increment_eq (h : gsl_histogram) (x : ℚ) :
    gsl_histogram_increment h x = { h with bin := deposit h.n h.range x h.bin } := by
  unfold gsl_histogram_increment deposit
  cases find h.n h.range x with
  | none => rfl
  | some index =>
    by_cases hi : index ≥ h.n <;> simp [hi]

theorem step_eq (xmin xmax : ℚ) (h : gsl_histogram) (u : ℚ) :
    HistoUpdate_step xmin xmax h u
      = { h with bin := step_bin h.n h.range xmin xmax h.bin u } := by
  unfold HistoUpdate_step step_bin clamped
  by_cases hu : |u| < tiny
  · simp [hu]
  · simp only [hu, if_false, increment_eq]

theorem foldl_step_eq (xmin xmax : ℚ) (xs : List ℚ) (h : gsl_histogram) :
    xs.foldl (HistoUpdate_step xmin xmax) h
      = { h with bin := xs.foldl (step_bin h.n h.range xmin xmax) h.bin } := by
  induction xs generalizing h with
  | nil => rfl
  | cons u xs ih => rw [List.foldl_cons, ih, step_eq]; rfl

theorem HistoUpdate_eq (src : VImage) (h : gsl_histogram) :
    HistoUpdate src h = { h with bin := update_bin src h.n h.range h.bin } := by
  unfold HistoUpdate update_bin gsl_histogram_min gsl_histogram_max
  exact foldl_step_eq _ _ _ h

theorem deposit_comm (n : Nat) (range : List ℚ) (x y : ℚ) (bin : List Nat) :
    deposit n range x (deposit n range y bin) = deposit n range y (deposit n range x bin) := by
  unfold deposit
  cases find n range x <;> cases find n range y <;> simp only []
  rename_i i j
  by_cases hi : i ≥ n <;> by_cases hj : j ≥ n <;> simp only [hi, hj, if_true, if_false]
  exact modify_succ_comm bin j i

theorem step_bin_comm (n : Nat) (range : List ℚ) (xmin xmax : ℚ) (bin : List Nat) (u v : ℚ) :
    step_bin n range xmin xmax (step_bin n range xmin xmax bin u) v
      = step_bin n range xmin xmax (step_bin n range xmin xmax bin v) u := by
  unfold step_bin
  by_cases hu : |u| < tiny <;> by_cases hv : |v| < tiny <;> simp only [hu, hv, if_true, if_false]
  exact deposit_comm _ _ _ _ _

theorem foldl_commute {α β : Type} (f : β → α → β) (g : β → β)
    (hc : ∀ b u, g (f b u) = f (g b) u) (xs : List α) (b : β) :
    g (xs.foldl f b) = xs.foldl f (g b) := by
  induction xs generalizing b with
  | nil => rfl
  | cons u xs ih => simp only [List.foldl_cons, ih, hc]

theorem update_bin_comm (d e : VImage) (n : Nat) (range : List ℚ) (bin : List Nat) :
    update_bin d n range (update_bin e n range bin)
      = update_bin e n range (update_bin d n range bin) := by
  unfold update_bin
  refine foldl_commute (step_bin n range (range.getD 0 0) (range.getD n 0))
    (fun b => List.foldl (step_bin n range (range.getD 0 0) (range.getD n 0)) b (VImageData d))
    ?_ (VImageData e) bin
  intro b u
  refine (foldl_commute (step_bin n range (range.getD 0 0) (range.getD n 0))
    (fun b => step_bin n range (range.getD 0 0) (range.getD n 0) b u) ?_ (VImageData d) b).symm
  intro b v
  exact step_bin_comm _ _ _ _ _ _ _

theorem deposit_length (n : Nat) (range : List ℚ) (x : ℚ) (bin : List Nat) :
    (deposit n range x bin).length = bin.length := by
  unfold deposit
  cases find n range x with
  | none => rfl
  | some i => by_cases hi : i ≥ n <;> simp [hi]

theorem update_bin_length (d : VImage) (n : Nat) (range : List ℚ) (bin : List Nat) :
    (update_bin d n range bin).length = bin.length := by
  unfold update_bin
  generalize VImageData d = xs
  induction xs generalizing bin with
  | nil => rfl
  | cons u xs ih =>
    rw [List.foldl_cons, ih]
    unfold step_bin
    by_cases hu : |u| < tiny <;> simp [hu, deposit_length]

theorem HistoUpdate_comm (d e : VImage) (h : gsl_histogram) :
    HistoUpdate d (HistoUpdate e h) = HistoUpdate e (HistoUpdate d h) := by
  simp only [HistoUpdate_eq]
  rw [update_bin_comm]

theorem deposit_add (n : Nat) (range : List ℚ) (x : ℚ) (a b : List Nat) :
    deposit n range x (add_bins a b) = add_bins a (deposit n range x b) := by
  unfold deposit add_bins
  cases find n range x with
  | none => rfl
  | some i =>
    by_cases hi : i ≥ n <;> simp only [hi, if_true, if_false]
    exact modify_zipWith_add a b i

theorem update_bin_add (d : VImage) (n : Nat) (range : List ℚ) (a b : List Nat) :
    update_bin d n range (add_bins a b) = add_bins a (update_bin d n range b) := by
  unfold update_bin
  refine (foldl_commute _ (fun b => add_bins a b) ?_ (VImageData d) b).symm
  intro b u
  unfold step_bin
  by_cases hu : |u| < tiny <;> simp only [hu, if_true, if_false]
  exact (deposit_add _ _ _ _ _).symm

theorem add_bins_zero (a : List Nat) : add_bins a (List.replicate a.length 0) = a := by
  unfold add_bins
  induction a with
  | nil => rfl
  | cons x a ih => simpa [List.replicate_succ] using ih

theorem accumulate_n_range (ds : List VImage) (h : gsl_histogram) :
    (accumulate h ds).n = h.n ∧ (accumulate h ds).range = h.range := by
  unfold accumulate
  induction ds generalizing h with
  | nil => exact ⟨rfl, rfl⟩
  | cons d ds ih =>
    rw [List.foldl_cons]
    have := ih (HistoUpdate d h)
    rw [HistoUpdate_eq] at this ⊢
    exact this

theorem accumulate_bin (ds : List VImage) (h : gsl_histogram) :
    (accumulate h ds).bin
      = (ds.map fun d => (HistoUpdate d (clear h)).bin).foldl add_bins h.bin := by
  induction ds generalizing h with
  | nil => rfl
  | cons d ds ih =>
    have hstep : (HistoUpdate d h).bin = add_bins h.bin (HistoUpdate d (clear h)).bin := by
      simp only [HistoUpdate_eq, clear]
      rw [← update_bin_add, add_bins_zero]
    have hclear : clear (HistoUpdate d h) = clear h := by
      simp only [HistoUpdate_eq, clear]
      rw [update_bin_length]
    show (accumulate (HistoUpdate d h) ds).bin = _
    rw [ih, hclear, List.map_cons, List.foldl_cons, hstep]

theorem make_uniform_getD (n i : Nat) (xmin xmax : ℚ) (hi : i ≤ n) :
    (make_uniform n xmin xmax).getD i 0
      = (((n : ℚ) - (i : ℚ)) / (n : ℚ)) * xmin + ((i : ℚ) / (n : ℚ)) * xmax := by
  unfold make_uniform
  rw [List.getD_eq_getElem?_getD, List.getElem?_map, List.getElem?_range (by omega)]
  rfl

theorem make_uniform_getD_eq (n i : Nat) (xmin xmax : ℚ) (hn : 1 ≤ n) (hi : i ≤ n) :
    (make_uniform n xmin xmax).getD i 0 = xmin + ((i : ℚ) / (n : ℚ)) * (xmax - xmin) := by
  rw [make_uniform_getD n i xmin xmax hi]
  have hn0 : (n : ℚ) ≠ 0 := by exact_mod_cast (by omega : n ≠ 0)
  field_simp
  ring

theorem find_uniform (n : Nat) (xmin xmax x : ℚ) (hn : 1 ≤ n) (hlt : xmin < xmax)
    (h1 : xmin ≤ x) (h2 : x < xmax) :
    ∃ i, i < n ∧ find n (make_uniform n xmin xmax) x = some i := by
  have hn0 : (0 : ℚ) < (n : ℚ) := by exact_mod_cast hn
  have hw : 0 < xmax - xmin := by linarith
  have r0 : (make_uniform n xmin xmax).getD 0 0 = xmin := by
    rw [make_uniform_getD_eq n 0 xmin xmax hn (by omega)]; simp
  have rn : (make_uniform n xmin xmax).getD n 0 = xmax := by
    rw [make_uniform_getD_eq n n xmin xmax hn (by omega)]
    rw [div_self (ne_of_gt hn0)]; ring
  set u := (x - xmin) / (xmax - xmin) with hu
  have hu0 : 0 ≤ u := div_nonneg (by linarith) (le_of_lt hw)
  have hu1 : u < 1 := by rw [hu, div_lt_one hw]; linarith
  have hun0 : 0 ≤ u * (n : ℚ) := mul_nonneg hu0 (le_of_lt hn0)
  have hun1 : u * (n : ℚ) < (n : ℚ) := by nlinarith
  have hf0 : 0 ≤ Int.floor (u * (n : ℚ)) := Int.floor_nonneg.mpr hun0
  obtain ⟨k, hk⟩ := Int.eq_ofNat_of_zero_le hf0
  have hkle : (k : ℚ) ≤ u * (n : ℚ) := by
    have := Int.floor_le (u * (n : ℚ)); rw [hk] at this; exact_mod_cast this
  have hklt : u * (n : ℚ) < (k : ℚ) + 1 := by
    have := Int.lt_floor_add_one (u * (n : ℚ)); rw [hk] at this; exact_mod_cast this
  have hkn : k < n := by
    have : (k : ℚ) < (n : ℚ) := lt_of_le_of_lt hkle hun1
    exact_mod_cast this
  have hx : x = xmin + u * (xmax - xmin) := by
    rw [hu, div_mul_cancel₀ _ (ne_of_gt hw)]; ring
  refine ⟨k, hkn, ?_⟩
  unfold find
  rw [r0, rn]
  have e1 : ¬ x < xmin := not_lt.mpr h1
  have e2 : ¬ x ≥ xmax := not_le.mpr h2
  simp only [e1, e2, if_false]
  rw [← hu, hk, Int.toNat_ofNat]
  have c1 : x ≥ (make_uniform n xmin xmax).getD k 0 := by
    rw [make_uniform_getD_eq n k xmin xmax hn (le_of_lt hkn), hx]
    have : (k : ℚ) / (n : ℚ) ≤ u := by rw [div_le_iff₀ hn0]; exact hkle
    nlinarith
  have c2 : x < (make_uniform n xmin xmax).getD (k + 1) 0 := by
    rw [make_uniform_getD_eq n (k + 1) xmin xmax hn hkn, hx]
    have : u < ((k + 1 : Nat) : ℚ) / (n : ℚ) := by
      rw [lt_div_iff₀ hn0]; push_cast; exact hklt
    nlinarith
  simp only [c1, c2, and_self, if_true]

theorem modify_succ_sum (l : List Nat) (i : Nat) (hi : i < l.length) :
    (l.modify (· + 1) i).sum = l.sum + 1 := by
  induction l generalizing i with
  | nil => simp at hi
  | cons a l ih =>
    cases i with
    | zero => simp; omega
    | succ i =>
      simp only [List.length_cons, Nat.add_lt_add_iff_right] at hi
      simp [ih i hi]; omega

theorem clamped_in_range (xmin xmax u : ℚ) (hw : tiny < xmax - xmin) (hu : u ≠ xmax) :
    xmin ≤ clamped xmin xmax u ∧ clamped xmin xmax u < xmax := by
  have ht : 0 < tiny := by unfold tiny; norm_num
  unfold clamped
  by_cases h1 : u > xmax
  · simp only [h1, if_true]
    have : ¬ (xmax - tiny < xmin) := by linarith
    simp only [this, if_false]
    constructor <;> linarith
  · simp only [h1, if_false]
    have hlt : u < xmax := lt_of_le_of_ne (not_lt.mp h1) hu
    by_cases h2 : u < xmin
    · simp only [h2, if_true]
      constructor <;> linarith
    · simp only [h2, if_false]
      exact ⟨not_lt.mp h2, hlt⟩

/-- Mass is kept when no sample equals the upper boundary: for a histogram of `n >= 1` uniform
bins over `[xmin, xmax]` wider than `tiny`, `HistoUpdate` raises the sum of the bin counts by the
number of samples minus the number of skipped ones, provided no sample is exactly `xmax`. -/
theorem HistoUpdate_total_of_no_sample_at_xmax (src : VImage) (h : gsl_histogram)
    (xmin xmax : ℚ) (hn : 1 ≤ h.n) (hr : h.range = make_uniform h.n xmin xmax)
    (hb : h.bin.length = h.n) (hw : tiny < xmax - xmin)
    (hne : ∀ u ∈ VImageData src, u ≠ xmax) :
    total (HistoUpdate src h)
      = total h + ((VImageData src).length - (skipped src).length) := by
  have ht : 0 < tiny := by unfold tiny; norm_num
  have hlt : xmin < xmax := by linarith
  have r0 : h.range.getD 0 0 = xmin := by
    rw [hr, make_uniform_getD_eq h.n 0 xmin xmax hn (by omega)]; simp
  have rn : h.range.getD h.n 0 = xmax := by
    have hn0 : (0 : ℚ) < (h.n : ℚ) := by exact_mod_cast hn
    rw [hr, make_uniform_getD_eq h.n h.n xmin xmax hn (by omega), div_self (ne_of_gt hn0)]; ring
  rw [HistoUpdate_eq]
  unfold total skipped update_bin
  simp only [r0, rn]
  generalize h.bin = bin at hb ⊢
  generalize VImageData src = xs at hne ⊢
  induction xs generalizing bin with
  | nil => simp
  | cons u xs ih =>
    have hne' : ∀ v ∈ xs, v ≠ xmax := fun v hv => hne v (List.mem_cons_of_mem _ hv)
    have hfl : (List.filter (fun u => decide (|u| < tiny)) xs).length ≤ xs.length :=
      List.length_filter_le _ _
    rw [List.foldl_cons]
    by_cases hu : |u| < tiny
    · have hs : step_bin h.n h.range xmin xmax bin u = bin := by simp [step_bin, hu]
      rw [hs, ih bin hb hne']
      simp only [List.filter_cons, hu, decide_True, if_true, List.length_cons]
      omega
    · obtain ⟨hc1, hc2⟩ := clamped_in_range xmin xmax u hw (hne u (List.mem_cons_self _ _))
      obtain ⟨i, hi, hfind⟩ := find_uniform h.n xmin xmax _ hn hlt hc1 hc2
      have hs : step_bin h.n h.range xmin xmax bin u = bin.modify (· + 1) i := by
        simp only [step_bin, hu, if_false, deposit, hr, hfind]
        simp [Nat.not_le.mpr hi]
      rw [hs, ih _ (by simp [hb]) hne', modify_succ_sum bin i (by omega)]
      simp only [List.filter_cons, hu, decide_False, List.length_cons]
      simp only [Bool.false_eq_true, if_false]
      omega

theorem perm_loop_snd (E : Externs) (s : Settings) (stddev : ℚ) (zmap : List VImage)
    (hist0 : gsl_histogram) :
    (perm_loop E s stddev zmap hist0).2 = accumulate hist0 (zmap.map (filtered E s stddev)) := by
  induction zmap generalizing hist0 with
  | nil => rfl
  | cons img rest ih =>
    simp only [perm_loop, List.map_cons, accumulate, List.foldl_cons]
    exact ih _

theorem accumulate_perm (h : gsl_histogram) (l₁ l₂ : List VImage) (p : l₁.Perm l₂) :
    accumulate h l₁ = accumulate h l₂ := by
  unfold accumulate
  exact List.Perm.foldl_eq' p (fun x _ y _ z => HistoUpdate_comm y x z) h

/-- A sample equal to the upper boundary is never counted: for every histogram whose lower
boundary does not exceed the upper one, the loop body of `HistoUpdate` leaves the histogram as it
is when the sample is `gsl_histogram_max`. -/
theorem HistoUpdate_step_at_xmax (h : gsl_histogram)
    (hle : gsl_histogram_min h ≤ gsl_histogram_max h) :
    HistoUpdate_step (gsl_histogram_min h) (gsl_histogram_max h) h (gsl_histogram_max h) = h := by
  unfold HistoUpdate_step
  by_cases hu : |gsl_histogram_max h| < tiny
  · rw [if_pos hu]
  · rw [if_neg hu]
    have e1 : ¬ gsl_histogram_max h > gsl_histogram_max h := lt_irrefl _
    have e2 : ¬ gsl_histogram_max h < gsl_histogram_min h := not_lt.mpr hle
    simp only [e1, e2, if_false]
    unfold gsl_histogram_increment find
    have e3 : ¬ gsl_histogram_max h < h.range.getD 0 0 := e2
    have e4 : gsl_histogram_max h ≥ h.range.getD h.n 0 := le_refl _
    simp only [e3, e4, if_true, if_false]

/-- C1, at an input where the code departs from it: a histogram of 100 uniform bins over
`[0, 1]` and an image of one sample whose value is `1`, the upper boundary. The sample is not
below `tiny` in absolute value, so no sample is skipped, and yet `HistoUpdate` leaves the sum of
the bin counts as it was: the test `u > xmax` does not clamp a sample equal to `xmax`, and
`gsl_histogram_increment` refuses it. The same holds for every histogram and the one-sample image
holding its upper boundary. -/
theorem HistoUpdate_drops_sample_at_xmax :
    gsl_histogram_min (uniform_histogram 100 0 1) = 0
      ∧ gsl_histogram_max (uniform_histogram 100 0 1) = 1
      ∧ VImageData z1 = [1]
      ∧ skipped z1 = []
      ∧ total (HistoUpdate z1 (uniform_histogram 100 0 1)) = total (uniform_histogram 100 0 1)
      ∧ ∀ h : gsl_histogram, gsl_histogram_min h ≤ gsl_histogram_max h →
          HistoUpdate ⟨1, 1, 1, VRepnKind.VFloatRepn, [gsl_histogram_max h]⟩ h = h := by
  refine ⟨by decide!, by decide!, by decide!, by decide!, by decide!, ?_⟩
  intro h hle
  exact HistoUpdate_step_at_xmax h hle

/-- C8: the null histogram does not depend on the order of the permutation volumes. For every
initial histogram `h` and every two lists of images that are permutations of each other,
accumulating them with `HistoUpdate` gives the same histogram; the bin counts are those obtained
by accumulating every image into a histogram of its own (same boundaries, zero bins) and adding
these to the bins of `h` bin by bin; and the permutation loop of `main` leaves the same `hist0`
for both orders of the permutation images. -/
theorem null_histogram_order_independent (h : gsl_histogram) (l₁ l₂ : List VImage)
    (p : l₁.Perm l₂) :
    accumulate h l₁ = accumulate h l₂
      ∧ (accumulate h l₁).bin
          = (l₂.map fun d => (HistoUpdate d (clear h)).bin).foldl add_bins h.bin
      ∧ ∀ (E : Externs) (s : Settings) (stddev : ℚ),
          (perm_loop E s stddev l₁ h).2 = (perm_loop E s stddev l₂ h).2 := by
  refine ⟨accumulate_perm h l₁ l₂ p, ?_, ?_⟩
  · rw [accumulate_perm h l₁ l₂ p, accumulate_bin]
  · intro E s stddev
    rw [perm_loop_snd, perm_loop_snd]
    exact accumulate_perm h _ _ (p.map _)

/-- C8 at a concrete input: the images `z3` and `z5` accumulated in both orders into two uniform
bins over `[0, 1]`. -/
theorem null_histogram_order_independent_witness :
    [z3, z5].Perm [z5, z3]
      ∧ (accumulate (uniform_histogram 2 0 1) [z3, z5]).bin = [1, 3]
      ∧ accumulate (uniform_histogram 2 0 1) [z3, z5]
          = accumulate (uniform_histogram 2 0 1) [z5, z3] :=
  ⟨List.Perm.swap z5 z3 [], by decide!,
    (null_histogram_order_independent (uniform_histogram 2 0 1) [z3, z5] [z5, z3]
      (List.Perm.swap z5 z3 [])).1⟩

/-! ## The run of `main` -/

theorem CheckImageTypes_nil (zmap1 : VImage) : CheckImageTypes zmap1 [] = .ok () := rfl

theorem null_stddev_nil (E : Externs) : null_stddev E [] = 1 := rfl

theorem perm_loop_nil (E : Externs) (s : Settings) (stddev : ℚ) (h : gsl_histogram) :
    perm_loop E s stddev [] h = ([], h) := rfl

theorem run_empty (E : Externs) (s : Settings) (zmap1 : VImage)
    (hf : zmap1.pixel_repn = VRepnKind.VFloatRepn) :
    run E s (some zmap1) []
      = ⟨Call.CheckImageTypes zmap1 [] :: (filtered_calls E s 1 zmap1
            ++ [Call.VGetHistRange (filtered E s 1 zmap1),
                Call.HistoUpdate (filtered E s 1 zmap1)
                  (uniform_histogram 10000 (E.VGetHistRange (filtered E s 1 zmap1)).1
                    (E.VGetHistRange (filtered E s 1 zmap1)).2)]
            ++ [Call.VWriteFile (filtered E s 1 zmap1)]),
          .ok (filtered E s 1 zmap1)⟩ := by
  simp [run, hf, CheckImageTypes_nil, null_stddev_nil, perm_loop_nil, apply_fdr,
    null_stddev_calls, uniform_histogram]

theorem early_null_stddev_calls (E : Externs) (s : Settings) (stddev : ℚ) (zmap : List VImage)
    (c : Call) (hc : c ∈ null_stddev_calls zmap) : early_call E s stddev c := by
  unfold null_stddev_calls at hc
  obtain ⟨img, _, rfl⟩ := List.mem_map.mp hc
  exact ⟨rfl, rfl, fun _ _ _ h => by cases h⟩

theorem early_filtered_calls (E : Externs) (s : Settings) (stddev : ℚ) (img : VImage)
    (c : Call) (hc : c ∈ filtered_calls E s stddev img) : early_call E s stddev c := by
  unfold filtered_calls get_mode_calls at hc
  cases hcen : s.centering
  · simp only [hcen, List.mem_append, List.mem_cons, List.mem_singleton,
      List.not_mem_nil, or_false, false_or, Bool.false_eq_true, if_false] at hc
    rcases hc with rfl | rfl
    · exact ⟨rfl, rfl, fun _ _ _ h => by cases h; exact ⟨rfl, rfl⟩⟩
    · exact ⟨rfl, rfl, fun _ _ _ h => by cases h⟩
  · simp only [hcen, if_true, List.mem_append, List.mem_cons, List.mem_singleton,
      List.not_mem_nil, or_false] at hc
    rcases hc with rfl | rfl | rfl
    · exact ⟨rfl, rfl, fun _ _ _ h => by cases h⟩
    · exact ⟨rfl, rfl, fun _ _ _ h => by cases h; exact ⟨rfl, rfl⟩⟩
    · exact ⟨rfl, rfl, fun _ _ _ h => by cases h⟩

theorem early_perm_loop (E : Externs) (s : Settings) (stddev : ℚ) (zmap : List VImage)
    (h : gsl_histogram) (c : Call) (hc : c ∈ (perm_loop E s stddev zmap h).1) :
    early_call E s stddev c := by
  induction zmap generalizing h with
  | nil => simp [perm_loop] at hc
  | cons img rest ih =>
    simp only [perm_loop, List.mem_append, List.mem_cons] at hc
    rcases hc with hc | rfl | hc
    · exact early_filtered_calls E s stddev img c hc
    · exact ⟨rfl, rfl, fun _ _ _ h => by cases h⟩
    · exact ih _ hc

/-- The shape of a run that passes the input checks: the calls are `CheckImageTypes`, then calls
that are neither `FDR` nor `VIsolatedVoxels`, among them the `VZScale` of the real image, then
the calls of the FDR step, then `VWriteFile` of the image that step leaves, which is the
result. -/
theorem run_shape (E : Externs) (s : Settings) (zmap1 : VImage) (zmap : List VImage)
    (hf : zmap1.pixel_repn = VRepnKind.VFloatRepn) (hc : CheckImageTypes zmap1 zmap = .ok ()) :
    ∃ (pre : List Call) (hist0 histz : gsl_histogram),
      (run E s (some zmap1) zmap).calls
          = Call.CheckImageTypes zmap1 zmap :: pre
              ++ (apply_fdr E s zmap.length (filtered E s (null_stddev E zmap) zmap1)
                    hist0 histz).1
              ++ [Call.VWriteFile (apply_fdr E s zmap.length
                    (filtered E s (null_stddev E zmap) zmap1) hist0 histz).2]
        ∧ (run E s (some zmap1) zmap).result
            = .ok (apply_fdr E s zmap.length (filtered E s (null_stddev E zmap) zmap1)
                    hist0 histz).2
        ∧ (∀ c ∈ pre, early_call E s (null_stddev E zmap) c)
        ∧ Call.VZScale zmap1 (get_mode E s zmap1) (null_stddev E zmap) ∈ pre := by
  refine ⟨null_stddev_calls zmap ++ filtered_calls E s (null_stddev E zmap) zmap1
      ++ [Call.VGetHistRange (filtered E s (null_stddev E zmap) zmap1),
          Call.HistoUpdate (filtered E s (null_stddev E zmap) zmap1)
            (uniform_histogram 10000
              (E.VGetHistRange (filtered E s (null_stddev E zmap) zmap1)).1
              (E.VGetHistRange (filtered E s (null_stddev E zmap) zmap1)).2)]
      ++ (perm_loop E s (null_stddev E zmap) zmap
            (uniform_histogram 10000
              (E.VGetHistRange (filtered E s (null_stddev E zmap) zmap1)).1
              (E.VGetHistRange (filtered E s (null_stddev E zmap) zmap1)).2)).1,
    (perm_loop E s (null_stddev E zmap) zmap
            (uniform_histogram 10000
              (E.VGetHistRange (filtered E s (null_stddev E zmap) zmap1)).1
              (E.VGetHistRange (filtered E s (null_stddev E zmap) zmap1)).2)).2,
    HistoUpdate (filtered E s (null_stddev E zmap) zmap1)
      (uniform_histogram 10000
              (E.VGetHistRange (filtered E s (null_stddev E zmap) zmap1)).1
              (E.VGetHistRange (filtered E s (null_stddev E zmap) zmap1)).2), ?_, ?_, ?_, ?_⟩
  · simp [run, hf, hc, uniform_histogram]
  · simp [run, hf, hc, uniform_histogram]
  · intro c hmem
    simp only [List.mem_append, List.mem_cons, List.mem_singleton, List.not_mem_nil,
      or_false] at hmem
    rcases hmem with ((hmem | hmem) | hmem | hmem) | hmem
    · exact early_null_stddev_calls E s _ zmap c hmem
    · exact early_filtered_calls E s _ zmap1 c hmem
    · subst hmem; exact ⟨rfl, rfl, fun _ _ _ h => by cases h⟩
    · subst hmem; exact ⟨rfl, rfl, fun _ _ _ h => by cases h⟩
    · exact early_perm_loop E s _ zmap _ c hmem
  · simp [filtered_calls]

/-- A run that does not pass the input checks ends with the message of `VError` and makes no call
other than (at most) `CheckImageTypes`. -/
theorem run_abort (E : Externs) (s : Settings) (zmap1 : Option VImage) (zmap : List VImage)
    (h : ∀ z, zmap1 = some z →
      ¬ (z.pixel_repn = VRepnKind.VFloatRepn ∧ CheckImageTypes z zmap = .ok ())) :
    (∃ e, (run E s zmap1 zmap).result = .error e)
      ∧ ∀ c ∈ (run E s zmap1 zmap).calls, ∃ z ps, c = Call.CheckImageTypes z ps := by
  cases zmap1 with
  | none => exact ⟨⟨_, rfl⟩, by simp [run]⟩
  | some z =>
    have hz := h z rfl
    by_cases hf : z.pixel_repn = VRepnKind.VFloatRepn
    · have hc : CheckImageTypes z zmap ≠ .ok () := fun hc => hz ⟨hf, hc⟩
      cases hck : CheckImageTypes z zmap with
      | error e => simp [run, hf, hck]
      | ok u => cases u; exact absurd hck hc
    · simp [run, hf]

theorem apply_fdr_cases (E : Externs) (s : Settings) (numperm : Nat) (dst1 : VImage)
    (hist0 histz : gsl_histogram) :
    (numperm = 0 ∧ apply_fdr E s numperm dst1 hist0 histz = ([], dst1))
      ∨ (0 < numperm ∧ ¬ (s.cleanup = true ∧ s.alpha < 1)
          ∧ apply_fdr E s numperm dst1 hist0 histz
              = ([Call.FDR dst1 dst1 s.alpha hist0 histz],
                  E.FDR dst1 dst1 s.alpha hist0 histz s.fdrfilename))
      ∨ (0 < numperm ∧ s.cleanup = true ∧ s.alpha < 1
          ∧ apply_fdr E s numperm dst1 hist0 histz
              = ([Call.FDR dst1 dst1 s.alpha hist0 histz,
                  Call.VIsolatedVoxels (E.FDR dst1 dst1 s.alpha hist0 histz s.fdrfilename)
                    (1 - s.alpha)],
                  E.VIsolatedVoxels (E.FDR dst1 dst1 s.alpha hist0 histz s.fdrfilename)
                    (1 - s.alpha))) := by
  unfold apply_fdr
  by_cases hn : numperm > 0
  · by_cases hcl : s.cleanup = true ∧ s.alpha < 1
    · right; right; exact ⟨hn, hcl.1, hcl.2, by simp [hn, hcl]⟩
    · right; left; exact ⟨hn, hcl, by simp only [hn, hcl, if_true, if_false]⟩
  · left; exact ⟨by omega, by simp only [hn, if_false]⟩

theorem apply_fdr_not_early (E : Externs) (s : Settings) (numperm : Nat) (dst1 : VImage)
    (hist0 histz : gsl_histogram) (c : Call)
    (hc : c ∈ (apply_fdr E s numperm dst1 hist0 histz).1) :
    c.isVZScale = false ∧ c.isVBilateralFilter = false := by
  rcases apply_fdr_cases E s numperm dst1 hist0 histz with ⟨_, h⟩ | ⟨_, _, h⟩ | ⟨_, _, _, h⟩ <;>
    rw [h] at hc <;> simp at hc
  · subst hc; exact ⟨rfl, rfl⟩
  · rcases hc with rfl | rfl <;> exact ⟨rfl, rfl⟩

/-- Every `VZScale` call of a run has the mode and the standard deviation that `main` computes,
and is made only after the input checks have passed. -/
theorem run_VZScale (E : Externs) (s : Settings) (zmap1 : Option VImage) (zmap : List VImage)
    (img : VImage) (mode sd : ℚ)
    (h : Call.VZScale img mode sd ∈ (run E s zmap1 zmap).calls) :
    mode = get_mode E s img ∧ sd = null_stddev E zmap := by
  by_cases hok : ∃ z, zmap1 = some z
      ∧ z.pixel_repn = VRepnKind.VFloatRepn ∧ CheckImageTypes z zmap = .ok ()
  · obtain ⟨z, rfl, hf, hc⟩ := hok
    obtain ⟨pre, hist0, histz, hcalls, _, hpre, _⟩ := run_shape E s z zmap hf hc
    rw [hcalls] at h
    simp only [List.mem_append, List.mem_cons, List.mem_singleton, List.not_mem_nil,
      or_false] at h
    rcases h with ((h | h) | h) | h
    · cases h
    · exact (hpre _ h).2.2 img mode sd rfl
    · exact Bool.noConfusion (apply_fdr_not_early E s _ _ _ _ _ h).1
    · cases h
  · have := (run_abort E s zmap1 zmap (fun z hz hh => hok ⟨z, hz, hh.1, hh.2⟩)).2 _ h
    obtain ⟨_, _, hcon⟩ := this
    cases hcon

theorem CheckImageTypes_error_iff (zmap1 : VImage) (zmap : List VImage) :
    (∃ e, CheckImageTypes zmap1 zmap = .error e)
      ↔ ∃ p ∈ zmap, VImageNPixels p ≠ VImageNPixels zmap1
          ∨ p.pixel_repn ≠ VRepnKind.VFloatRepn := by
  induction zmap with
  | nil => simp [CheckImageTypes]
  | cons p rest ih =>
    unfold CheckImageTypes CheckImageTypes_step
    by_cases h1 : VImageNPixels zmap1 ≠ VImageNPixels p
    · rw [if_pos h1]
      constructor
      · intro _
        exact ⟨p, List.mem_cons_self _ _, Or.inl (fun h => h1 h.symm)⟩
      · intro _
        exact ⟨_, rfl⟩
    · have h1' : VImageNPixels p = VImageNPixels zmap1 := (not_not.mp h1).symm
      rw [if_neg h1]
      by_cases h2 : p.pixel_repn ≠ VRepnKind.VFloatRepn
      · rw [if_pos h2]
        constructor
        · intro _
          exact ⟨p, List.mem_cons_self _ _, Or.inr h2⟩
        · intro _
          exact ⟨_, rfl⟩
      · rw [if_neg h2]
        show (∃ e, CheckImageTypes zmap1 rest = .error e) ↔ _
        rw [ih]
        constructor
        · rintro ⟨q, hq, hd⟩
          exact ⟨q, List.mem_cons_of_mem _ hq, hd⟩
        · rintro ⟨q, hq, hd⟩
          rcases List.mem_cons.mp hq with rfl | hq
          · rcases hd with hd | hd
            · exact absurd h1' hd
            · exact absurd hd h2
          · exact ⟨q, hq, hd⟩

theorem CheckImageTypes_ok_or_error (zmap1 : VImage) (zmap : List VImage) :
    CheckImageTypes zmap1 zmap = .ok () ∨ ∃ e, CheckImageTypes zmap1 zmap = .error e := by
  cases h : CheckImageTypes zmap1 zmap with
  | error e => exact Or.inr ⟨e, rfl⟩
  | ok u => cases u; exact Or.inl rfl

theorem foldl_varsum (f : VImage → ℚ) (l : List VImage) (x k : ℚ) :
    l.foldl (fun (a : ℚ × ℚ) img => (a.1 + f img, a.2 + 1)) (x, k)
      = (x + (l.map f).sum, k + (l.length : ℚ)) := by
  induction l generalizing x k with
  | nil => simp
  | cons img l ih =>
    rw [List.foldl_cons, ih]
    simp only [List.map_cons, List.sum_cons, List.length_cons, Nat.cast_add, Nat.cast_one]
    refine Prod.ext ?_ ?_ <;> simp only [] <;> ring

theorem null_stddev_eq (E : Externs) (zmap : List VImage) (hn : 1 ≤ zmap.length) :
    null_stddev E zmap = E.sqrt (mean_var E zmap) := by
  unfold null_stddev mean_var
  have h0 : zmap.length > 0 := hn
  simp only [h0, if_true, foldl_varsum, zero_add]
  by_cases h30 : 30 > zmap.length
  · have hmin : min 30 zmap.length = zmap.length := by omega
    simp only [h30, if_true, hmin, List.length_take, Nat.min_self]
  · have hmin : min 30 zmap.length = 30 := by omega
    simp only [h30, if_false, hmin, List.length_take]

theorem store_centering (s : Settings) (v : Var) (x : OptVal) (hv : v ≠ Var.centering) :
    (store s v x).centering = s.centering := by
  cases v <;> cases x <;> first | rfl | exact absurd rfl hv

theorem options_value_ne_centering :
    ∀ row ∈ options, row.value ≠ Var.centering := by
  decide

theorem VParseCommand_centering (argv : List (String × OptVal)) (s s' : Settings)
    (h : VParseCommand options argv s = .ok s') : s'.centering = s.centering := by
  induction argv generalizing s with
  | nil =>
    simp only [VParseCommand] at h
    cases h; rfl
  | cons a rest ih =>
    obtain ⟨key, x⟩ := a
    simp only [VParseCommand] at h
    cases hf : options.find? (fun row => row.keyword == key) with
    | none => rw [hf] at h; cases h
    | some row =>
      rw [hf] at h
      rw [ih _ h]
      exact store_centering s row.value x
        (options_value_ne_centering row (List.mem_of_find?_eq_some hf))

theorem VParseFilterCmdX_centering (argv : List (String × OptVal)) (s : Settings)
    (h : VParseFilterCmdX options argv {} = .ok s) : s.centering = false := by
  unfold VParseFilterCmdX at h
  split at h
  · exact VParseCommand_centering argv _ s h
  · cases h

/-- A run that passes the input checks, with at least one permutation image, `cleanup` set and
`alpha < 1`, calls `VIsolatedVoxels` with the threshold `1 - alpha`. -/
theorem run_cleanup_call (E : Externs) (s : Settings) (zmap1 : VImage) (zmap : List VImage)
    (hf : zmap1.pixel_repn = VRepnKind.VFloatRepn) (hc : CheckImageTypes zmap1 zmap = .ok ())
    (hn : 0 < zmap.length) (hcl : s.cleanup = true) (hal : s.alpha < 1) :
    ∃ img, Call.VIsolatedVoxels img (1 - s.alpha) ∈ (run E s (some zmap1) zmap).calls := by
  obtain ⟨pre, hist0, histz, hcalls, _, _, _⟩ := run_shape E s zmap1 zmap hf hc
  rcases apply_fdr_cases E s zmap.length (filtered E s (null_stddev E zmap) zmap1) hist0 histz
    with ⟨h0, _⟩ | ⟨_, hno, _⟩ | ⟨_, _, _, hfdr⟩
  · omega
  · exact absurd ⟨hcl, hal⟩ hno
  · rw [hfdr] at hcalls
    refine ⟨E.FDR (filtered E s (null_stddev E zmap) zmap1)
      (filtered E s (null_stddev E zmap) zmap1) s.alpha hist0 histz s.fdrfilename, ?_⟩
    rw [hcalls]
    simp

/-! ## The claims about `main` -/

/-- C2, refuted at a concrete input: with the default options, a real volume of one voxel with
the value 5 and no permutation image, the external routines being those the specification
describes, the image `main` writes is the input image; it is not all-zero. -/
theorem empty_permutation_set_output_not_zero :
    (main specExterns argv_default (some z5) []).result = .ok z5 ∧ ¬ all_zero z5 := by
  decide!

/-- C2 as amended: with an empty permutation set the image written is the z-scaled,
bilateral-filtered real volume `dst1`, whatever `alpha` and `cleanup` are; hence it is all-zero
if and only if `dst1` is. -/
theorem empty_permutation_set_output_zero_iff (E : Externs) (s : Settings) (zmap1 : VImage)
    (alpha : ℚ) (cleanup : Bool) (hf : zmap1.pixel_repn = VRepnKind.VFloatRepn) :
    ∃ out, (run E { s with alpha := alpha, cleanup := cleanup } (some zmap1) []).result = .ok out
      ∧ out = filtered E s 1 zmap1
      ∧ (all_zero out ↔ all_zero (filtered E s 1 zmap1)) := by
  refine ⟨filtered E s 1 zmap1, ?_, rfl, Iff.rfl⟩
  rw [run_empty E _ zmap1 hf]
  rfl

/-- C2 as amended, at a concrete input: the one-voxel volume `z5` with `alpha = 1/100` and
`cleanup` off. -/
theorem empty_permutation_set_output_zero_iff_witness :
    z5.pixel_repn = VRepnKind.VFloatRepn
      ∧ ∃ out, (run specExterns { ({} : Settings) with alpha := 1 / 100, cleanup := false }
                  (some z5) []).result = .ok out
          ∧ out = filtered specExterns {} 1 z5
          ∧ (all_zero out ↔ all_zero (filtered specExterns {} 1 z5)) :=
  ⟨rfl, empty_permutation_set_output_zero_iff specExterns {} z5 (1 / 100) false rfl⟩

/-- C3: with an empty permutation set and a float real volume the run does not abort; the image
written is the z-scaled (standard deviation `1.0`), bilateral-filtered real volume; no call of
the run is `FDR` or `VIsolatedVoxels`; and the last call is `VWriteFile` of that image. -/
theorem empty_permutation_set_passthrough (E : Externs) (s : Settings) (zmap1 : VImage)
    (hf : zmap1.pixel_repn = VRepnKind.VFloatRepn) :
    (run E s (some zmap1) []).result
        = .ok (E.VBilateralFilter (E.VZScale zmap1 (get_mode E s zmap1) 1)
                s.radius s.rvar s.svar s.numiter)
      ∧ (∀ c ∈ (run E s (some zmap1) []).calls, c.isFDR = false ∧ c.isVIsolatedVoxels = false)
      ∧ (run E s (some zmap1) []).calls.getLast?
          = some (Call.VWriteFile (E.VBilateralFilter (E.VZScale zmap1 (get_mode E s zmap1) 1)
                s.radius s.rvar s.svar s.numiter)) := by
  rw [run_empty E s zmap1 hf]
  refine ⟨rfl, ?_, ?_⟩
  · intro c hc
    simp only [List.mem_append, List.mem_cons, List.mem_singleton, List.not_mem_nil,
      or_false] at hc
    rcases hc with rfl | (hc | rfl | rfl) | rfl
    · exact ⟨rfl, rfl⟩
    · exact ⟨(early_filtered_calls E s 1 zmap1 c hc).1,
        (early_filtered_calls E s 1 zmap1 c hc).2.1⟩
    · exact ⟨rfl, rfl⟩
    · exact ⟨rfl, rfl⟩
    · exact ⟨rfl, rfl⟩
  · rw [← List.cons_append, List.getLast?_append]
    simp [filtered]

/-- C3 at a concrete input: the one-voxel volume `z5`, default options, no permutation image. -/
theorem empty_permutation_set_passthrough_witness :
    z5.pixel_repn = VRepnKind.VFloatRepn
      ∧ (run specExterns {} (some z5) []).result = .ok z5 :=
  ⟨rfl, (empty_permutation_set_passthrough specExterns {} z5 rfl).1.trans (by decide!)⟩

/-- C4, refuted at a concrete input: one permutation image with both voxels 3 has variance 0, the
null standard deviation is 0, and the run goes on: `VZScale` is called on the real volume with
`stddev = 0` and the run ends by writing an image, not by an abort. -/
theorem zero_null_variance_not_rejected :
    spec_VImageVar z33 = 0
      ∧ null_stddev specExterns [z33] = 0
      ∧ Call.VZScale z35 0 0 ∈ (main specExterns argv_default (some z35) [z33]).calls
      ∧ (main specExterns argv_default (some z35) [z33]).result.isOk = true := by
  decide!

/-- C4 as amended: `main` makes no test of the null standard deviation. For every non-empty
permutation set that passes `CheckImageTypes` (and a float real volume), `VZScale` is called on
the real volume with `stddev` the square root of the mean variance, whatever its value, and the
run does not abort. -/
theorem degenerate_variance_not_checked (E : Externs) (s : Settings) (zmap1 : VImage)
    (zmap : List VImage) (hf : zmap1.pixel_repn = VRepnKind.VFloatRepn)
    (hc : CheckImageTypes zmap1 zmap = .ok ()) (hne : zmap ≠ []) :
    Call.VZScale zmap1 (get_mode E s zmap1) (E.sqrt (mean_var E zmap))
        ∈ (run E s (some zmap1) zmap).calls
      ∧ ∃ out, (run E s (some zmap1) zmap).result = .ok out := by
  have hn : 1 ≤ zmap.length := by
    cases zmap with
    | nil => exact absurd rfl hne
    | cons a l => simp
  obtain ⟨pre, hist0, histz, hcalls, hres, _, hz⟩ := run_shape E s zmap1 zmap hf hc
  rw [← null_stddev_eq E zmap hn]
  refine ⟨?_, _, hres⟩
  rw [hcalls]
  simp only [List.mem_append, List.mem_cons]
  exact Or.inl (Or.inl (Or.inr hz))

/-- C4 as amended, at a concrete input: the real volume `z35` and the single permutation image
`z33`, whose variance is 0. -/
theorem degenerate_variance_not_checked_witness :
    z35.pixel_repn = VRepnKind.VFloatRepn
      ∧ CheckImageTypes z35 [z33] = .ok ()
      ∧ [z33] ≠ []
      ∧ specExterns.sqrt (mean_var specExterns [z33]) = 0
      ∧ Call.VZScale z35 (get_mode specExterns {} z35) (specExterns.sqrt (mean_var specExterns [z33]))
          ∈ (run specExterns {} (some z35) [z33]).calls :=
  ⟨rfl, rfl, by simp, by decide!,
    (degenerate_variance_not_checked specExterns {} z35 [z33] rfl rfl (by simp)).1⟩

/-- C5, at the input where the code departs from it: the row `centering` of the option table
stores into `cleanup`, so no command line sets `centering`. With `-cleanup false -centering true`
the parsed variables have `centering = false` and `cleanup = true`, and both `VZScale` calls of
the run (real volume and permutation volume, the image `z35` whose mode is 3) receive mode 0. -/
theorem centering_option_stores_into_cleanup :
    (∀ argv s, VParseFilterCmdX options argv {} = .ok s → s.centering = false)
      ∧ VParseFilterCmdX options argv_centering {}
          = .ok { ({} : Settings) with filename := "perm.v", centering := false, cleanup := true }
      ∧ spec_VGetMode z35 = 3
      ∧ (main specExterns argv_centering (some z35) [z35]).calls.filter Call.isVZScale
          = [Call.VZScale z35 0 1, Call.VZScale z35 0 1] :=
  ⟨VParseFilterCmdX_centering, by decide!, by decide!, by decide!⟩

/-- C6: `CheckImageTypes` aborts if and only if some permutation image has a voxel count other
than the observed volume's or a pixel representation other than float; in every run of `main` a
call of `VZScale` or `VBilateralFilter` comes after the call of `CheckImageTypes`, which has then
passed; and when `CheckImageTypes` aborts the run aborts without any such call. -/
theorem dimension_mismatch_is_fatal (E : Externs) (s : Settings) (zmap1 : VImage)
    (zmap : List VImage) :
    ((∃ e, CheckImageTypes zmap1 zmap = .error e)
        ↔ ∃ p ∈ zmap, VImageNPixels p ≠ VImageNPixels zmap1
            ∨ p.pixel_repn ≠ VRepnKind.VFloatRepn)
      ∧ (∀ pre c post, (run E s (some zmap1) zmap).calls = pre ++ c :: post →
          (c.isVZScale = true ∨ c.isVBilateralFilter = true) →
            Call.CheckImageTypes zmap1 zmap ∈ pre ∧ CheckImageTypes zmap1 zmap = .ok ())
      ∧ ((∃ e, CheckImageTypes zmap1 zmap = .error e) →
          (∃ e, (run E s (some zmap1) zmap).result = .error e)
            ∧ ∀ c ∈ (run E s (some zmap1) zmap).calls,
                c.isVZScale = false ∧ c.isVBilateralFilter = false) := by
  have habort : ∀ (hbad : ¬ (zmap1.pixel_repn = VRepnKind.VFloatRepn
      ∧ CheckImageTypes zmap1 zmap = .ok ())),
      (∃ e, (run E s (some zmap1) zmap).result = .error e)
        ∧ ∀ c ∈ (run E s (some zmap1) zmap).calls,
            c.isVZScale = false ∧ c.isVBilateralFilter = false := by
    intro hbad
    have h := run_abort E s (some zmap1) zmap (fun z hz => by cases hz; exact hbad)
    refine ⟨h.1, fun c hc => ?_⟩
    obtain ⟨z, ps, rfl⟩ := h.2 c hc
    exact ⟨rfl, rfl⟩
  refine ⟨CheckImageTypes_error_iff zmap1 zmap, ?_, ?_⟩
  · intro pre c post hcalls hfilter
    by_cases hok : zmap1.pixel_repn = VRepnKind.VFloatRepn
        ∧ CheckImageTypes zmap1 zmap = .ok ()
    · refine ⟨?_, hok.2⟩
      obtain ⟨pre', hist0, histz, hshape, _, _, _⟩ := run_shape E s zmap1 zmap hok.1 hok.2
      rw [hshape] at hcalls
      cases pre with
      | nil =>
        simp only [List.nil_append, List.cons_append, List.cons.injEq] at hcalls
        rw [← hcalls.1] at hfilter
        rcases hfilter with h | h <;> exact Bool.noConfusion h
      | cons a tl =>
        simp only [List.cons_append, List.cons.injEq] at hcalls
        rw [← hcalls.1]
        exact List.mem_cons_self _ _
    · have hno := (habort hok).2 c (by rw [hcalls]; simp)
      rcases hfilter with h | h
      · rw [hno.1] at h; exact Bool.noConfusion h
      · rw [hno.2] at h; exact Bool.noConfusion h
  · rintro ⟨e, he⟩
    exact habort (fun hok => by rw [hok.2] at he; cases he)

/-- C7: for a permutation list of length `n >= 1`, the standard deviation used for z-scaling is
the square root of the mean of `VImageVar` over the first `min(30, n)` permutation images, so
that its square is that mean wherever `sqrt` is exact; for `n = 0` it is `1.0`; and every
`VZScale` call of the run receives this standard deviation. -/
theorem null_scale_estimate (E : Externs) (zmap : List VImage) (hn : 1 ≤ zmap.length)
    (hs : E.sqrt (mean_var E zmap) ^ 2 = mean_var E zmap) :
    null_stddev E zmap = E.sqrt (mean_var E zmap)
      ∧ null_stddev E zmap ^ 2
          = ((zmap.take (min 30 zmap.length)).map E.VImageVar).sum
              / ((min 30 zmap.length : Nat) : ℚ)
      ∧ null_stddev E [] = 1
      ∧ ∀ (s : Settings) (zmap1 : Option VImage) (img : VImage) (mode sd : ℚ),
          Call.VZScale img mode sd ∈ (run E s zmap1 zmap).calls → sd = null_stddev E zmap := by
  refine ⟨null_stddev_eq E zmap hn, ?_, rfl, ?_⟩
  · rw [null_stddev_eq E zmap hn, hs]; rfl
  · intro s zmap1 img mode sd h
    exact (run_VZScale E s zmap1 zmap img mode sd h).2

/-- C7 at a concrete input: 31 permutation images, thirty of variance 1 followed by one of
variance 0; the mean over the first thirty is 1 and the standard deviation is 1. -/
theorem null_scale_estimate_witness :
    1 ≤ (List.replicate 30 z35 ++ [z33]).length
      ∧ mean_var specExterns (List.replicate 30 z35 ++ [z33]) = 1
      ∧ null_stddev specExterns (List.replicate 30 z35 ++ [z33]) ^ 2 = 1 :=
  ⟨by decide, by decide!,
    (null_scale_estimate specExterns (List.replicate 30 z35 ++ [z33]) (by decide)
      (by decide!)).2.1.trans (by decide!)⟩

/-- C9: in every run, a call of `VIsolatedVoxels` occurs only with `alpha < 1` and `cleanup`
set; its threshold is `1 - alpha`; its image is the result of the `FDR` call made just before it;
it is followed by `VWriteFile` of the image it leaves and by nothing else, and that image is the
result of the run. -/
theorem isolation_cleanup_gating (E : Externs) (s : Settings) (zmap1 : Option VImage)
    (zmap : List VImage) (img : VImage) (thr : ℚ)
    (h : Call.VIsolatedVoxels img thr ∈ (run E s zmap1 zmap).calls) :
    s.alpha < 1 ∧ s.cleanup = true ∧ thr = 1 - s.alpha
      ∧ ∃ (pre : List Call) (src dest : VImage) (nullhist realhist : gsl_histogram),
          img = E.FDR src dest s.alpha nullhist realhist s.fdrfilename
            ∧ (run E s zmap1 zmap).calls
                = pre ++ [Call.FDR src dest s.alpha nullhist realhist,
                          Call.VIsolatedVoxels img thr,
                          Call.VWriteFile (E.VIsolatedVoxels img thr)]
            ∧ (run E s zmap1 zmap).result = .ok (E.VIsolatedVoxels img thr) := by
  by_cases hok : ∃ z, zmap1 = some z
      ∧ z.pixel_repn = VRepnKind.VFloatRepn ∧ CheckImageTypes z zmap = .ok ()
  · obtain ⟨z, rfl, hf, hc⟩ := hok
    obtain ⟨pre, hist0, histz, hcalls, hres, hpre, _⟩ := run_shape E s z zmap hf hc
    rw [hcalls] at h
    simp only [List.mem_append, List.mem_cons, List.mem_singleton, List.not_mem_nil,
      or_false] at h
    rcases h with ((h | h) | h) | h
    · cases h
    · exact Bool.noConfusion (hpre _ h).2.1
    · rcases apply_fdr_cases E s zmap.length (filtered E s (null_stddev E zmap) z) hist0 histz
        with ⟨_, hfdr⟩ | ⟨_, _, hfdr⟩ | ⟨_, hcl, hal, hfdr⟩
      · rw [hfdr] at h; simp at h
      · rw [hfdr] at h; simp at h
      · rw [hfdr] at h hcalls hres
        simp at h
        obtain ⟨himg, hthr⟩ := h
        subst himg hthr
        refine ⟨hal, hcl, rfl, Call.CheckImageTypes z zmap :: pre, _, _, _, _, rfl, ?_, hres⟩
        rw [hcalls]
        simp
    · cases h
  · have := (run_abort E s zmap1 zmap (fun z hz hh => hok ⟨z, hz, hh.1, hh.2⟩)).2 _ h
    obtain ⟨_, _, hcon⟩ := this
    cases hcon

/-- C9 at a concrete input: the default options (`alpha = 1/20`, `cleanup` set), the real volume
`z35` and one permutation image; `VIsolatedVoxels` is called, with threshold `1 - alpha`. -/
theorem isolation_cleanup_gating_witness :
    ∃ img, Call.VIsolatedVoxels img (1 - ({} : Settings).alpha)
        ∈ (run specExterns {} (some z35) [z35]).calls
      ∧ ({} : Settings).alpha < 1 ∧ ({} : Settings).cleanup = true :=
  (run_cleanup_call specExterns {} z35 [z35] rfl rfl (by decide) rfl (by decide!)).elim
    fun img hmem =>
      ⟨img, hmem,
        (isolation_cleanup_gating specExterns {} (some z35) [z35] img _ hmem).1,
        (isolation_cleanup_gating specExterns {} (some z35) [z35] img _ hmem).2.1⟩

end vlisa0

namespace Nii2Vista

/-! ## The claims about `VIniImage` -/

/-- C10, where the code departs from it: `VIniImage` never returns zero. A call with a band, row
or column count below 1 ends the program through `VError` (for instance `nbands = 0`), and every
call with all three counts at least 1 returns an image with those counts. -/
theorem VIniImage_never_returns_zero :
    VIniImage size4 0 1 1 VRepnKind.VFloatRepn 0 = .error "VIniImage: Invalid number of bands"
      ∧ (∀ (VRepnSize : VRepnKind → Nat) (nbands nrows ncolumns : Int) (pixel_repn : VRepnKind)
          (databuffer : Nat),
          VIniImage VRepnSize nbands nrows ncolumns pixel_repn databuffer ≠ .ok none)
      ∧ (∀ (VRepnSize : VRepnKind → Nat) (nbands nrows ncolumns : Int) (pixel_repn : VRepnKind)
          (databuffer : Nat), (nbands < 1 ∨ nrows < 1 ∨ ncolumns < 1) →
          ∃ msg, VIniImage VRepnSize nbands nrows ncolumns pixel_repn databuffer = .error msg)
      ∧ (∀ (VRepnSize : VRepnKind → Nat) (nbands nrows ncolumns : Int) (pixel_repn : VRepnKind)
          (databuffer : Nat), 1 ≤ nbands → 1 ≤ nrows → 1 ≤ ncolumns →
          ∃ image, VIniImage VRepnSize nbands nrows ncolumns pixel_repn databuffer
              = .ok (some image)
            ∧ image.nbands = nbands ∧ image.nrows = nrows ∧ image.ncolumns = ncolumns) := by
  refine ⟨rfl, ?_, ?_, ?_⟩
  · intro VRepnSize nbands nrows ncolumns pixel_repn databuffer h
    unfold VIniImage at h
    split_ifs at h
    simp at h
  · intro VRepnSize nbands nrows ncolumns pixel_repn databuffer hbad
    unfold VIniImage
    by_cases h1 : nbands < 1
    · exact ⟨_, by rw [if_pos h1]⟩
    · by_cases h2 : nrows < 1
      · exact ⟨_, by rw [if_neg h1, if_pos h2]⟩
      · have h3 : ncolumns < 1 := by
          rcases hbad with h | h | h
          · exact absurd h h1
          · exact absurd h h2
          · exact h
        exact ⟨_, by rw [if_neg h1, if_neg h2, if_pos h3]⟩
  · intro VRepnSize nbands nrows ncolumns pixel_repn databuffer h1 h2 h3
    unfold VIniImage
    have e1 : ¬ nbands < 1 := by omega
    have e2 : ¬ nrows < 1 := by omega
    have e3 : ¬ ncolumns < 1 := by omega
    simp only [e1, e2, e3, if_false]
    exact ⟨_, rfl, rfl, rfl, rfl⟩

/-! ## The claims about the units and about the two conversion paths -/

theorem AlignUp_of_dvd (v b : Nat) (hb : 0 < b) (h : b ∣ v) : AlignUp v b = v := by
  obtain ⟨k, rfl⟩ := h
  unfold AlignUp
  have h1 : (b * k + b - 1) / b = k := by
    have : b * k + b - 1 = b * k + (b - 1) := by omega
    rw [this, Nat.mul_add_div hb, Nat.div_eq_of_lt (by omega)]
    rfl
  rw [h1, Nat.mul_comm]

theorem getD_map_range {α : Type} (f : Nat → α) (n i : Nat) (d : α) (h : i < n) :
    ((List.range n).map f).getD i d = f i := by
  rw [List.getD_eq_getElem?_getD, List.getElem?_map, List.getElem?_range h]
  rfl

theorem Nii2Vista4D_index_eq (nsize nslices nrows ncols ti slice row col : Nat) :
    Nii2Vista4D_index nsize nslices nrows ncols ti slice row col
      = (linear_index nslices nrows ncols ti slice row col + 1) * nsize := by
  unfold Nii2Vista4D_index linear_index
  simp only []
  ring

theorem Nii2Vista3DList_offset_eq (VRepnSize : VRepnKind → Nat)
    (data nsize nslices nrows ncols : Nat) (pixel_repn : VRepnKind) (ti slice row col : Nat)
    (hs : slice < nslices) (hr : row < nrows) (hc : col < ncols)
    (hsize : VRepnSize pixel_repn = nsize) (hpos : 0 < nsize)
    (hal : nsize ∣ data) (h4 : nsize ∣ 4) :
    Nii2Vista3DList_offset VRepnSize data nsize nslices nrows ncols pixel_repn ti slice row col
      = some (4 + linear_index nslices nrows ncols ti slice row col * nsize) := by
  have e1 : ¬ ((nslices : Int) < 1) := by omega
  have e2 : ¬ ((nrows : Int) < 1) := by omega
  have e3 : ¬ ((ncols : Int) < 1) := by omega
  have hdvd : nsize ∣ data + ti * (nrows * ncols * nslices) * nsize + 4 :=
    Nat.dvd_add (Nat.dvd_add hal (Nat.dvd_mul_left _ _)) h4
  unfold Nii2Vista3DList_offset Nii2Vista3DList_image VIniImage
  simp only [e1, e2, e3, if_false, VPixelPtr, hsize]
  rw [AlignUp_of_dvd _ _ hpos hdvd]
  have hb : ((List.range (nslices : Int).toNat).map
      fun (band : Nat) => (band : Int) * (nrows : Int)).getD slice 0
        = (slice : Int) * (nrows : Int) :=
    getD_map_range _ _ _ _ (by simpa using hs)
  rw [hb]
  have hidx : ((slice : Int) * (nrows : Int)).toNat + row = slice * nrows + row := by
    have : ((slice : Int) * (nrows : Int)) = ((slice * nrows : Nat) : Int) := by push_cast; rfl
    rw [this, Int.toNat_ofNat]
  rw [hidx]
  have hlt : slice * nrows + row < ((nslices : Int) * (nrows : Int)).toNat := by
    have : ((nslices : Int) * (nrows : Int)) = ((nslices * nrows : Nat) : Int) := by
      push_cast; rfl
    rw [this, Int.toNat_ofNat]
    calc slice * nrows + row < slice * nrows + nrows := by omega
      _ = (slice + 1) * nrows := by ring
      _ ≤ nslices * nrows := Nat.mul_le_mul_right _ hs
  rw [getD_map_range _ _ _ _ hlt]
  have hrow : ((ncols : Int) * (nsize : Int)).toNat = ncols * nsize := by
    have : ((ncols : Int) * (nsize : Int)) = ((ncols * nsize : Nat) : Int) := by push_cast; rfl
    rw [this, Int.toNat_ofNat]
  rw [hrow]
  unfold linear_index
  congr 1
  have : data + ti * (nrows * ncols * nslices) * nsize + 4
        + (slice * nrows + row) * (ncols * nsize) + col * nsize
      = data + (4 + (col + row * ncols + slice * nrows * ncols
          + ti * nslices * nrows * ncols) * nsize) := by ring
  rw [this, Nat.add_sub_cancel_left]

theorem VGetNiftiHeader_pixdim (hdr : nifti_1_header) (tr : Int) :
    (VGetNiftiHeader hdr tr).pixdim
      = [hdr.pixdim.getD 0 0,
         hdr.pixdim.getD 1 0
           * (if XYZT_TO_SPACE hdr.xyzt_units = NIFTI_UNITS_MICRON then 1000 else 1),
         hdr.pixdim.getD 2 0
           * (if XYZT_TO_SPACE hdr.xyzt_units = NIFTI_UNITS_MICRON then 1000 else 1),
         hdr.pixdim.getD 3 0
           * (if XYZT_TO_SPACE hdr.xyzt_units = NIFTI_UNITS_MICRON then 1000 else 1),
         if tr > 0 then (tr : ℚ)
         else hdr.pixdim.getD 4 0
           * (if XYZT_TO_TIME hdr.xyzt_units = NIFTI_UNITS_SEC then 1000 else 1),
         0, 0, 0] := by
  have r8 : List.range 8 = [0, 1, 2, 3, 4, 5, 6, 7] := by decide
  unfold VGetNiftiHeader
  simp only [r8, List.map_cons, List.map_nil, List.foldl_cons, List.foldl_nil,
    List.modify_succ_cons, List.modify_zero_cons]
  by_cases h : tr > 0
  · simp only [h, if_true, List.set_cons_succ, List.set_cons_zero]
  · simp only [h, if_false, List.set_cons_succ, List.set_cons_zero]

/-- C11, at inputs where the code departs from it. A header that declares microns and seconds,
with voxels of 500 microns and a repetition time of 2 seconds, and no `tr` override: the claim
gives 0.5 (mm) and 2 (sec); the code stores 500000 and 2000, for it multiplies micron lengths by
1000 and second durations by 1000. A header in millimetres and seconds stores 2000 for the 2
seconds as well. For every header the stored `pixdim` is the header's with entries 1 to 3
multiplied by 1000 for microns only, and entry 4 multiplied by 1000 for seconds only. -/
theorem VGetNiftiHeader_units_not_mm_sec :
    XYZT_TO_SPACE hdr_micron_sec.xyzt_units = NIFTI_UNITS_MICRON
      ∧ XYZT_TO_TIME hdr_micron_sec.xyzt_units = NIFTI_UNITS_SEC
      ∧ (VGetNiftiHeader hdr_micron_sec 0).pixdim
          = [1, 500000, 500000, 500000, 2000, 0, 0, 0]
      ∧ to_mm (XYZT_TO_SPACE hdr_micron_sec.xyzt_units) 500 = 1 / 2
      ∧ to_sec (XYZT_TO_TIME hdr_micron_sec.xyzt_units) 2 = 2
      ∧ XYZT_TO_SPACE hdr_mm_sec.xyzt_units = NIFTI_UNITS_MM
      ∧ XYZT_TO_TIME hdr_mm_sec.xyzt_units = NIFTI_UNITS_SEC
      ∧ (VGetNiftiHeader hdr_mm_sec 0).pixdim = [1, 3, 3, 3, 2000, 0, 0, 0]
      ∧ ∀ (hdr : nifti_1_header) (tr : Int),
          (VGetNiftiHeader hdr tr).pixdim
            = [hdr.pixdim.getD 0 0,
               hdr.pixdim.getD 1 0
                 * (if XYZT_TO_SPACE hdr.xyzt_units = NIFTI_UNITS_MICRON then 1000 else 1),
               hdr.pixdim.getD 2 0
                 * (if XYZT_TO_SPACE hdr.xyzt_units = NIFTI_UNITS_MICRON then 1000 else 1),
               hdr.pixdim.getD 3 0
                 * (if XYZT_TO_SPACE hdr.xyzt_units = NIFTI_UNITS_MICRON then 1000 else 1),
               if tr > 0 then (tr : ℚ)
               else hdr.pixdim.getD 4 0
                 * (if XYZT_TO_TIME hdr.xyzt_units = NIFTI_UNITS_SEC then 1000 else 1),
               0, 0, 0] :=
  ⟨by decide, by decide, by decide!, by decide!, by decide!, by decide, by decide, by decide!,
    VGetNiftiHeader_pixdim⟩

/-- C12, at an input where the code departs from it. For 2-byte samples (`VShortRepn`), a data
block at the address 348 (aligned to 2), two time steps of 2 x 2 x 2 voxels and the voxel at
time step 1, slice 1, row 0, column 1 (linear index 13): `Nii2Vista4D` reads at the byte offset
28 = (13+1)*2, the list-of-3D-images path places the voxel at the byte offset 30 = 4 + 13*2. In
general the first offset is `(L+1)*nsize`, the second `4 + L*nsize` (for a pixel size that
divides 4 and the address of the block), and the two agree exactly when `nsize = 4`. -/
theorem conversion_paths_differ_unless_nsize_4 :
    linear_index 2 2 2 1 1 0 1 = 13
      ∧ Nii2Vista4D_index 2 2 2 2 1 1 0 1 = 28
      ∧ Nii2Vista3DList_offset sizeC 348 2 2 2 2 VRepnKind.VShortRepn 1 1 0 1 = some 30
      ∧ (∀ (nsize nslices nrows ncols ti slice row col : Nat),
          Nii2Vista4D_index nsize nslices nrows ncols ti slice row col
            = (linear_index nslices nrows ncols ti slice row col + 1) * nsize)
      ∧ (∀ (VRepnSize : VRepnKind → Nat) (data nsize nslices nrows ncols : Nat)
          (pixel_repn : VRepnKind) (ti slice row col : Nat),
          slice < nslices → row < nrows → col < ncols → VRepnSize pixel_repn = nsize →
          0 < nsize → nsize ∣ data → nsize ∣ 4 →
          Nii2Vista3DList_offset VRepnSize data nsize nslices nrows ncols pixel_repn
              ti slice row col
            = some (4 + linear_index nslices nrows ncols ti slice row col * nsize))
      ∧ (∀ (VRepnSize : VRepnKind → Nat) (data nsize nslices nrows ncols : Nat)
          (pixel_repn : VRepnKind) (ti slice row col : Nat),
          slice < nslices → row < nrows → col < ncols → VRepnSize pixel_repn = nsize →
          0 < nsize → nsize ∣ data → nsize ∣ 4 →
          (Nii2Vista3DList_offset VRepnSize data nsize nslices nrows ncols pixel_repn
              ti slice row col
            = some (Nii2Vista4D_index nsize nslices nrows ncols ti slice row col)
            ↔ nsize = 4)) := by
  refine ⟨by decide, by decide, by decide, Nii2Vista4D_index_eq, ?_, ?_⟩
  · intro VRepnSize data nsize nslices nrows ncols pixel_repn ti slice row col hs hr hc hsize
      hpos hal h4
    exact Nii2Vista3DList_offset_eq VRepnSize data nsize nslices nrows ncols pixel_repn
      ti slice row col hs hr hc hsize hpos hal h4
  · intro VRepnSize data nsize nslices nrows ncols pixel_repn ti slice row col hs hr hc hsize
      hpos hal h4
    rw [Nii2Vista3DList_offset_eq VRepnSize data nsize nslices nrows ncols pixel_repn
      ti slice row col hs hr hc hsize hpos hal h4, Nii2Vista4D_index_eq, Option.some.injEq,
      Nat.add_mul, Nat.one_mul]
    constructor <;> intro h <;> omega

end Nii2Vista
